import Mathlib

set_option autoImplicit false
set_option linter.unusedVariables false

/-!
# Verification of the spimdisasm symbol-resolution and section-analysis core

This file is a shallow embedding of the parts of spimdisasm needed to settle
the claims about its specification: the `SymbolsSegment` symbol store and its
`addSymbol`/`addFunction`/`addBranchLabel`/`addJumpTable`/`addJumpTableLabel`/
`getSymbol` operations, the `Context` banned-symbol and hardware-register
fillers, the `SectionBss.analyze` bss-sizing algorithm, and the data-symbol
emission dispatch of `SymbolBase.disassembleAsData` together with the
`disassemble` wrappers of `SymbolBase` and `SymbolBss`.

Python dictionaries keyed by address are embedded as association lists kept
sorted by key (the source uses a `SortedDict`); in-place mutation of symbol
records is embedded as explicit state passing, returning the updated store.
Machine integers are embedded as `Nat` (the source uses unbounded Python
ints; addresses stay below 2^32 in practice and no wraparound occurs in the
embedded code paths), except bss `space` values which the source computes as
possibly negative Python ints and which are embedded as `Int`.
-/

/-- Section kinds, from `FileSectionType` (used throughout the source). -/
inductive FileSectionType where
  | unknownSection
  | text
  | data
  | rodata
  | bss
  deriving DecidableEq, Repr

/-- Modelled from the spec: the symbol `type` tag of a `ContextSymbol`
(`ContextSymbols.py` is not under src/). The source stores either a
`SymbolSpecialType` enum value, a user type string, or `None`; §3 of the spec
lists the variants. -/
inductive SymType where
  | noType
  | function
  | branchlabel
  | jumptable
  | jumptablelabel
  | hardwarereg
  | constantType
  | byteType
  | shortType
  | wordType
  | floatType
  | doubleType
  | stringType
  | userType (s : String)
  deriving DecidableEq, Repr

/-- Modelled from the spec (§3): the per-address symbol record `ContextSymbol`
(`ContextSymbols.py` is not under src/). Only the fields read or written by
the embedded operations are carried. -/
structure ContextSymbol where
  vram : Nat
  name : Option String
  symType : SymType
  size : Option Nat
  sectionType : FileSectionType
  isDefined : Bool
  isUserDeclared : Bool
  isAutogenerated : Bool
  vromAddress : Option Nat
  unknownSegment : Bool
  overlayCategory : Option String
  isElfNotype : Bool
  deriving DecidableEq, Repr

/-- Modelled from the spec (§3): a freshly constructed `ContextSymbol`: every
optional field unset, every flag clear except the arguments. -/
def ContextSymbol.new (address : Nat) (isAutogenerated : Bool)
    (sectionType : FileSectionType) (overlayCategory : Option String) : ContextSymbol :=
  { vram := address
    name := none
    symType := .noType
    size := none
    sectionType := sectionType
    isDefined := false
    isUserDeclared := false
    isAutogenerated := isAutogenerated
    vromAddress := none
    unknownSegment := false
    overlayCategory := overlayCategory
    isElfNotype := false }

/-- Modelled from the spec (§4.2, §9): `ContextSymbol.getSize`
(`ContextSymbols.py` is not under src/). §4.2 requires `getSymbol` with
`tryPlusOffset` to accept `addr` only when `addr < key + size`, and §9
requires it to return none when the size is unknown and upper-limit checking
is requested, so an unset size behaves as 0 in the upper-limit check. -/
def ContextSymbol.getSizeModel (c : ContextSymbol) : Nat :=
  c.size.getD 0

/-- Modelled from the spec (§3, §4.5): the type predicates of
`ContextSymbol` dispatch on the type tag. -/
def ContextSymbol.isByteTy (c : ContextSymbol) : Bool := c.symType = .byteType

/-- Modelled from the spec (§3, §4.5): short-typed symbol. -/
def ContextSymbol.isShortTy (c : ContextSymbol) : Bool := c.symType = .shortType

/-- Modelled from the spec (§3, §4.5): float-typed symbol. -/
def ContextSymbol.isFloatTy (c : ContextSymbol) : Bool := c.symType = .floatType

/-- Modelled from the spec (§3, §4.5): double-typed symbol. -/
def ContextSymbol.isDoubleTy (c : ContextSymbol) : Bool := c.symType = .doubleType

/-- Modelled from the spec (§3, §4.5): string-typed symbol. -/
def ContextSymbol.isStringTy (c : ContextSymbol) : Bool := c.symType = .stringType

/-- Modelled from the spec (§4.1): the `SortedDict` ordered map, embedded as
an association list kept sorted strictly ascending by key. Exact lookup. -/
def sdGet {α : Type} : List (Nat × α) → Nat → Option α
  | [], _ => none
  | (k, v) :: rest, a => if k = a then some v else sdGet rest a

/-- Modelled from the spec (§4.1): ordered insert, replacing an existing
entry with the same key. -/
def sdInsert {α : Type} : List (Nat × α) → Nat → α → List (Nat × α)
  | [], k, v => [(k, v)]
  | (k0, v0) :: rest, k, v =>
    if k < k0 then (k, v) :: (k0, v0) :: rest
    else if k = k0 then (k, v) :: rest
    else (k0, v0) :: sdInsert rest k v

/-- One fold step of `sdGetKeyRight`: keep the entry with the greater key
among those with key ≤ the query. -/
def sdKeyRightStep {α : Type} (a : Nat) : Option (Nat × α) → (Nat × α) → Option (Nat × α)
  | none, p => if p.1 ≤ a then some p else none
  | some q, p => if p.1 ≤ a then (if q.1 < p.1 then some p else some q) else some q

/-- Modelled from the spec (§4.1): `getKeyRight(k, inclusive=True)`, the
entry with the greatest key that is ≤ the query. Written as a fold so it is
correct for any association list with distinct keys. -/
def sdGetKeyRight {α : Type} (l : List (Nat × α)) (a : Nat) : Option (Nat × α) :=
  l.foldl (sdKeyRightStep a) none

/-- Modelled from the spec (§4.1): `range(lo, hi)` with an inclusive lower and
exclusive upper bound; ascending when the list is sorted. -/
def sdRange {α : Type} (l : List (Nat × α)) (lo hi : Nat) : List (Nat × α) :=
  l.filter (fun p => lo ≤ p.1 ∧ p.1 < hi)

/-- The symbol segment state, from `SymbolsSegment.__init__`
(src/spimdisasm/common/SymbolsSegment.py). `newPointersInData` holds only
keys in the source paths embedded here (the dict maps each pointer to
itself), and `offsetSymbolsBss` stands for the keys of
`context.offsetSymbols[FileSectionType.Bss]` read by `SectionBss.analyze`. -/
structure SymbolsSegment where
  vromStart : Option Nat
  vromEnd : Option Nat
  vramStart : Nat
  vramEnd : Nat
  overlayCategory : Option String
  symbols : List (Nat × ContextSymbol)
  newPointersInData : List Nat
  isTheUnknownSegment : Bool
  deriving DecidableEq, Repr

/-- Store a symbol record back at its address (the Python source mutates the
shared `ContextSymbol` object in place; the embedding writes it back). -/
def SymbolsSegment.setSymbol (seg : SymbolsSegment) (address : Nat)
    (c : ContextSymbol) : SymbolsSegment :=
  { seg with symbols := sdInsert seg.symbols address c }

/-- `SymbolsSegment.addSymbol` (src/spimdisasm/common/SymbolsSegment.py,
lines 92-110): idempotent creation; upgrades `sectionType` only from
`Unknown`; fills `vromAddress` only if previously unset; marks
`unknownSegment` when the segment has no VROM bounds or is the unknown
segment. Returns the resulting symbol together with the updated segment. -/
def SymbolsSegment.addSymbol (seg : SymbolsSegment) (address : Nat)
    (sectionType : FileSectionType) (isAutogenerated : Bool)
    (vromAddress : Option Nat) : ContextSymbol × SymbolsSegment :=
  let base :=
    match sdGet seg.symbols address with
    | some c => c
    | none => ContextSymbol.new address isAutogenerated sectionType seg.overlayCategory
  let c1 := if base.sectionType = .unknownSection then { base with sectionType := sectionType } else base
  let c2 := if c1.vromAddress = none ∧ vromAddress ≠ none then { c1 with vromAddress := vromAddress } else c1
  let c3 := if seg.vromStart = none ∨ seg.vromEnd = none ∨ seg.isTheUnknownSegment then { c2 with unknownSegment := true } else c2
  (c3, seg.setSymbol address c3)

/-- `SymbolsSegment.addFunction` (lines 112-117): `addSymbol` with
section Text; sets the type to `function` unless it is `jumptablelabel`;
then unconditionally forces `sectionType` to Text. -/
def SymbolsSegment.addFunction (seg : SymbolsSegment) (address : Nat)
    (isAutogenerated : Bool) (vromAddress : Option Nat) : ContextSymbol × SymbolsSegment :=
  let r := seg.addSymbol address .text isAutogenerated vromAddress
  let c1 := if r.1.symType ≠ .jumptablelabel then { r.1 with symType := .function } else r.1
  let c2 := { c1 with sectionType := .text }
  (c2, r.2.setSymbol address c2)

/-- `SymbolsSegment.addBranchLabel` (lines 119-123): `addSymbol` with
section Text; sets the type to `branchlabel` unless it is already
`jumptablelabel` or `function`. -/
def SymbolsSegment.addBranchLabel (seg : SymbolsSegment) (address : Nat)
    (isAutogenerated : Bool) (vromAddress : Option Nat) : ContextSymbol × SymbolsSegment :=
  let r := seg.addSymbol address .text isAutogenerated vromAddress
  let c1 :=
    if r.1.symType ≠ .jumptablelabel ∧ r.1.symType ≠ .function then
      { r.1 with symType := .branchlabel }
    else r.1
  (c1, r.2.setSymbol address c1)

/-- `SymbolsSegment.addJumpTable` (lines 125-129): `addSymbol` with
section Rodata; sets the type to `jumptable` unless it is `function`. -/
def SymbolsSegment.addJumpTable (seg : SymbolsSegment) (address : Nat)
    (isAutogenerated : Bool) (vromAddress : Option Nat) : ContextSymbol × SymbolsSegment :=
  let r := seg.addSymbol address .rodata isAutogenerated vromAddress
  let c1 := if r.1.symType ≠ .function then { r.1 with symType := .jumptable } else r.1
  (c1, r.2.setSymbol address c1)

/-- `SymbolsSegment.addJumpTableLabel` (lines 131-135): `addSymbol` with
section Text; unconditionally forces the type to `jumptablelabel` and the
section to Text. -/
def SymbolsSegment.addJumpTableLabel (seg : SymbolsSegment) (address : Nat)
    (isAutogenerated : Bool) (vromAddress : Option Nat) : ContextSymbol × SymbolsSegment :=
  let r := seg.addSymbol address .text isAutogenerated vromAddress
  let c1 := { r.1 with symType := .jumptablelabel, sectionType := .text }
  (c1, r.2.setSymbol address c1)

/-- `SymbolsSegment.getSymbol` (lines 148-160). The first argument is the
`GlobalConfig.PRODUCE_SYMBOLS_PLUS_OFFSET` toggle. With the toggle and
`tryPlusOffset` set it looks up the predecessor entry and rejects it when
`checkUpperLimit` holds and the address reaches past `key + getSize()`;
otherwise the lookup is an exact match. -/
def SymbolsSegment.getSymbolModel (produceSymbolsPlusOffset : Bool)
    (seg : SymbolsSegment) (address : Nat) (tryPlusOffset : Bool)
    (checkUpperLimit : Bool) : Option ContextSymbol :=
  if produceSymbolsPlusOffset ∧ tryPlusOffset then
    match sdGetKeyRight seg.symbols address with
    | none => none
    | some (symVram, c) =>
      if checkUpperLimit ∧ symVram + c.getSizeModel ≤ address then none else some c
  else sdGet seg.symbols address

/-- `SymbolsSegment.getSymbolsRange` (lines 162-163): ascending entries with
`addressStart ≤ vram < addressEnd`. -/
def SymbolsSegment.getSymbolsRangeModel (seg : SymbolsSegment) (addressStart addressEnd : Nat) :
    List (Nat × ContextSymbol) :=
  sdRange seg.symbols addressStart addressEnd

theorem sdGet_sdInsert_self {α : Type} (l : List (Nat × α)) (k : Nat) (v : α) :
    sdGet (sdInsert l k v) k = some v := by
  induction l with
  | nil => simp [sdInsert, sdGet]
  | cons p rest ih =>
    obtain ⟨k0, v0⟩ := p
    by_cases h1 : k < k0
    · simp [sdInsert, h1, sdGet]
    · by_cases h2 : k = k0
      · simp [sdInsert, h1, h2, sdGet]
      · simp [sdInsert, h1, h2, sdGet, ih, Ne.symm h2]

theorem sdGet_sdInsert_ne {α : Type} (l : List (Nat × α)) (k a : Nat) (v : α)
    (h : k ≠ a) : sdGet (sdInsert l k v) a = sdGet l a := by
  induction l with
  | nil => simp [sdInsert, sdGet, h]
  | cons p rest ih =>
    obtain ⟨k0, v0⟩ := p
    by_cases h1 : k < k0
    · simp [sdInsert, h1, sdGet, h]
    · by_cases h2 : k = k0
      · subst h2
        simp [sdInsert, h1, sdGet, h]
      · simp [sdInsert, h1, h2, sdGet, ih]

/-- Modelled from the spec (§4.8): the `GlobalOffsetTable` record
(`GlobalOffsetTable.py` is not under src/); carried only so that `Context`
preservation statements are meaningful. -/
structure GlobalOffsetTable where
  pltGot : Option Nat
  localsTable : List Nat
  globalsTable : List Nat
  deriving DecidableEq, Repr

/-- An `.elf` relocation record, from `ContextRelocInfo` as used by
`Context.getRelocInfo` and `SymbolBase.getNthWordAsWords`. -/
structure RelocInfo where
  referencedSectionVram : Option Nat
  relocName : String
  deriving DecidableEq, Repr

/-- The root `Context` state, from `Context.__init__`
(src/spimdisasm/common/Context.py, lines 27-51). -/
structure Context where
  globalSegment : SymbolsSegment
  unknownSegment : SymbolsSegment
  overlaySegments : List (String × List (Nat × SymbolsSegment))
  totalVramStart : Nat
  totalVramEnd : Nat
  defaultVramRanges : Bool
  bannedSymbols : Finset Nat
  relocInfosText : List (Nat × RelocInfo)
  relocInfosData : List (Nat × RelocInfo)
  relocInfosRodata : List (Nat × RelocInfo)
  relocInfosBss : List (Nat × RelocInfo)
  got : GlobalOffsetTable
  deriving DecidableEq

/-- `Context.N64DefaultBanned` (src/spimdisasm/common/Context.py,
lines 19-25). -/
def Context.N64DefaultBanned : Finset Nat :=
  {0x7FFFFFE0, 0x7FFFFFF0, 0x7FFFFFFF, 0x80000010, 0x80000020}

/-- `Context.fillDefaultBannedSymbols` (lines 102-103): set union into
`bannedSymbols`. -/
def Context.fillDefaultBannedSymbols (ctx : Context) : Context :=
  { ctx with bannedSymbols := ctx.bannedSymbols ∪ Context.N64DefaultBanned }

/-- `SymbolsSegment.N64HardwareRegs` (src/spimdisasm/common/SymbolsSegment.py,
lines 211-306): the N64 OS hardware registers, in source order. -/
def SymbolsSegment.N64HardwareRegs : List (Nat × String) :=
  [ (0xA4040000, "SP_MEM_ADDR_REG")
  , (0xA4040004, "SP_DRAM_ADDR_REG")
  , (0xA4040008, "SP_RD_LEN_REG")
  , (0xA404000C, "SP_WR_LEN_REG")
  , (0xA4040010, "SP_STATUS_REG")
  , (0xA4040014, "SP_DMA_FULL_REG")
  , (0xA4040018, "SP_DMA_BUSY_REG")
  , (0xA404001C, "SP_SEMAPHORE_REG")
  , (0xA4080000, "SP_PC")
  , (0xA4100000, "DPC_START_REG")
  , (0xA4100004, "DPC_END_REG")
  , (0xA4100008, "DPC_CURRENT_REG")
  , (0xA410000C, "DPC_STATUS_REG")
  , (0xA4100010, "DPC_CLOCK_REG")
  , (0xA4100014, "DPC_BUFBUSY_REG")
  , (0xA4100018, "DPC_PIPEBUSY_REG")
  , (0xA410001C, "DPC_TMEM_REG")
  , (0xA4200000, "DPS_TBIST_REG")
  , (0xA4200004, "DPS_TEST_MODE_REG")
  , (0xA4200008, "DPS_BUFTEST_ADDR_REG")
  , (0xA420000C, "DPS_BUFTEST_DATA_REG")
  , (0xA4300000, "MI_MODE_REG")
  , (0xA4300004, "MI_VERSION_REG")
  , (0xA4300008, "MI_INTR_REG")
  , (0xA430000C, "MI_INTR_MASK_REG")
  , (0xA4400000, "VI_STATUS_REG")
  , (0xA4400004, "VI_DRAM_ADDR_REG")
  , (0xA4400008, "VI_WIDTH_REG")
  , (0xA440000C, "VI_INTR_REG")
  , (0xA4400010, "VI_CURRENT_REG")
  , (0xA4400014, "VI_BURST_REG")
  , (0xA4400018, "VI_V_SYNC_REG")
  , (0xA440001C, "VI_H_SYNC_REG")
  , (0xA4400020, "VI_LEAP_REG")
  , (0xA4400024, "VI_H_START_REG")
  , (0xA4400028, "VI_V_START_REG")
  , (0xA440002C, "VI_V_BURST_REG")
  , (0xA4400030, "VI_X_SCALE_REG")
  , (0xA4400034, "VI_Y_SCALE_REG")
  , (0xA4500000, "AI_DRAM_ADDR_REG")
  , (0xA4500004, "AI_LEN_REG")
  , (0xA4500008, "AI_CONTROL_REG")
  , (0xA450000C, "AI_STATUS_REG")
  , (0xA4500010, "AI_DACRATE_REG")
  , (0xA4500014, "AI_BITRATE_REG")
  , (0xA4600000, "PI_DRAM_ADDR_REG")
  , (0xA4600004, "PI_CART_ADDR_REG")
  , (0xA4600005, "D_A4600005")
  , (0xA4600006, "D_A4600006")
  , (0xA4600007, "D_A4600007")
  , (0xA4600008, "PI_RD_LEN_REG")
  , (0xA460000C, "PI_WR_LEN_REG")
  , (0xA4600010, "PI_STATUS_REG")
  , (0xA4600014, "PI_BSD_DOM1_LAT_REG")
  , (0xA4600018, "PI_BSD_DOM1_PWD_REG")
  , (0xA460001C, "PI_BSD_DOM1_PGS_REG")
  , (0xA4600020, "PI_BSD_DOM1_RLS_REG")
  , (0xA4600024, "PI_BSD_DOM2_LAT_REG")
  , (0xA4600028, "PI_BSD_DOM2_LWD_REG")
  , (0xA460002C, "PI_BSD_DOM2_PGS_REG")
  , (0xA4600030, "PI_BSD_DOM2_RLS_REG")
  , (0xA4700000, "RI_MODE_REG")
  , (0xA4700004, "RI_CONFIG_REG")
  , (0xA4700008, "RI_CURRENT_LOAD_REG")
  , (0xA470000C, "RI_SELECT_REG")
  , (0xA4700010, "RI_REFRESH_REG")
  , (0xA4700014, "RI_LATENCY_REG")
  , (0xA4700018, "RI_RERROR_REG")
  , (0xA470001C, "RI_WERROR_REG")
  , (0xA4800000, "SI_DRAM_ADDR_REG")
  , (0xA4800004, "SI_PIF_ADDR_RD64B_REG")
  , (0xA4800008, "D_A4800008")
  , (0xA480000C, "D_A480000C")
  , (0xA4800010, "SI_PIF_ADDR_WR64B_REG")
  , (0xA4800014, "D_A4800014")
  , (0xA4800018, "SI_STATUS_REG")
  ]

/-- One iteration of the `SymbolsSegment.fillHardwareRegs` loop
(lines 319-329): `addSymbol(vram)` with default arguments, then overwrite
`name` (with the table name only when `useRealNames`), `type`, `size`,
`isDefined` and `isUserDeclared`. -/
def SymbolsSegment.fillHardwareRegsStep (useRealNames : Bool) (seg : SymbolsSegment)
    (entry : Nat × String) : SymbolsSegment :=
  let nameToUse : Option String := if useRealNames then some entry.2 else none
  let r := seg.addSymbol entry.1 .unknownSection false none
  let c := { r.1 with
    name := nameToUse
    symType := .hardwarereg
    size := some 4
    isDefined := true
    isUserDeclared := true }
  r.2.setSymbol entry.1 c

/-- `SymbolsSegment.fillHardwareRegs` (lines 319-329): the loop over the
hardware-register table. -/
def SymbolsSegment.fillHardwareRegs (seg : SymbolsSegment) (useRealNames : Bool) : SymbolsSegment :=
  SymbolsSegment.N64HardwareRegs.foldl (SymbolsSegment.fillHardwareRegsStep useRealNames) seg

/-- The initial global segment of `Context.__init__`
(src/spimdisasm/common/Context.py, line 29): arbitrary initial ranges and an
empty symbol table. -/
def emptyGlobalSegment : SymbolsSegment :=
  { vromStart := some 0x0
    vromEnd := some 0x1000
    vramStart := 0x80000000
    vramEnd := 0x80001000
    overlayCategory := none
    symbols := []
    newPointersInData := []
    isTheUnknownSegment := false }

/-- C8: `fillDefaultBannedSymbols` adds exactly the five addresses
0x7FFFFFE0, 0x7FFFFFF0, 0x7FFFFFFF, 0x80000010, 0x80000020 to the context's
`bannedSymbols` by set union (previously banned addresses are kept) and
modifies no other field of the `Context`. -/
theorem C8_fillDefaultBannedSymbols_exact (ctx : Context) :
    ctx.fillDefaultBannedSymbols.bannedSymbols
      = ctx.bannedSymbols
        ∪ ({0x7FFFFFE0, 0x7FFFFFF0, 0x7FFFFFFF, 0x80000010, 0x80000020} : Finset Nat)
    ∧ ctx.fillDefaultBannedSymbols.globalSegment = ctx.globalSegment
    ∧ ctx.fillDefaultBannedSymbols.unknownSegment = ctx.unknownSegment
    ∧ ctx.fillDefaultBannedSymbols.overlaySegments = ctx.overlaySegments
    ∧ ctx.fillDefaultBannedSymbols.totalVramStart = ctx.totalVramStart
    ∧ ctx.fillDefaultBannedSymbols.totalVramEnd = ctx.totalVramEnd
    ∧ ctx.fillDefaultBannedSymbols.defaultVramRanges = ctx.defaultVramRanges
    ∧ ctx.fillDefaultBannedSymbols.relocInfosText = ctx.relocInfosText
    ∧ ctx.fillDefaultBannedSymbols.relocInfosData = ctx.relocInfosData
    ∧ ctx.fillDefaultBannedSymbols.relocInfosRodata = ctx.relocInfosRodata
    ∧ ctx.fillDefaultBannedSymbols.relocInfosBss = ctx.relocInfosBss
    ∧ ctx.fillDefaultBannedSymbols.got = ctx.got :=
  ⟨rfl, rfl, rfl, rfl, rfl, rfl, rfl, rfl, rfl, rfl, rfl, rfl⟩

theorem fillHardwareRegsStep_get_self (u : Bool) (seg : SymbolsSegment)
    (entry : Nat × String) :
    ∃ c : ContextSymbol,
      sdGet (SymbolsSegment.fillHardwareRegsStep u seg entry).symbols entry.1 = some c
      ∧ c.name = (if u then some entry.2 else none)
      ∧ c.symType = .hardwarereg
      ∧ c.size = some 4
      ∧ c.isDefined = true
      ∧ c.isUserDeclared = true := by
  simp only [SymbolsSegment.fillHardwareRegsStep, SymbolsSegment.setSymbol]
  exact ⟨_, sdGet_sdInsert_self _ _ _, rfl, rfl, rfl, rfl, rfl⟩

theorem fillHardwareRegsStep_get_other (u : Bool) (seg : SymbolsSegment)
    (entry : Nat × String) (a : Nat) (h : entry.1 ≠ a) :
    sdGet (SymbolsSegment.fillHardwareRegsStep u seg entry).symbols a
      = sdGet seg.symbols a := by
  simp only [SymbolsSegment.fillHardwareRegsStep, SymbolsSegment.setSymbol,
    SymbolsSegment.addSymbol]
  rw [sdGet_sdInsert_ne _ _ _ _ h, sdGet_sdInsert_ne _ _ _ _ h]

theorem fillHardwareRegs_foldl_preserves (u : Bool) (l : List (Nat × String))
    (seg : SymbolsSegment) (a : Nat) (h : a ∉ l.map Prod.fst) :
    sdGet (l.foldl (SymbolsSegment.fillHardwareRegsStep u) seg).symbols a
      = sdGet seg.symbols a := by
  induction l generalizing seg with
  | nil => rfl
  | cons e rest ih =>
    simp only [List.map_cons, List.mem_cons, not_or] at h
    rw [List.foldl_cons, ih _ h.2, fillHardwareRegsStep_get_other u seg e a (fun he => h.1 he.symm)]

theorem fillHardwareRegs_foldl_spec (u : Bool) (l : List (Nat × String))
    (seg : SymbolsSegment) (vram : Nat) (regName : String)
    (hmem : (vram, regName) ∈ l) (hnd : (l.map Prod.fst).Nodup) :
    ∃ c : ContextSymbol,
      sdGet (l.foldl (SymbolsSegment.fillHardwareRegsStep u) seg).symbols vram = some c
      ∧ c.name = (if u then some regName else none)
      ∧ c.symType = .hardwarereg
      ∧ c.size = some 4
      ∧ c.isDefined = true
      ∧ c.isUserDeclared = true := by
  induction l generalizing seg with
  | nil => cases hmem
  | cons e rest ih =>
    simp only [List.map_cons, List.nodup_cons] at hnd
    rcases List.mem_cons.mp hmem with heq | hrest
    · subst heq
      obtain ⟨c, hc, hrest'⟩ := fillHardwareRegsStep_get_self u seg (vram, regName)
      refine ⟨c, ?_, hrest'⟩
      rw [List.foldl_cons, fillHardwareRegs_foldl_preserves u rest _ vram hnd.1]
      exact hc
    · rw [List.foldl_cons]
      exact ih _ hrest hnd.2

/-- C10: `fillHardwareRegs(useRealNames=False)` gives every address of the
N64 hardware-register table a symbol whose `name` stays unset (`None`) while
being typed `hardwarereg` with size 4, `isDefined=True` and
`isUserDeclared=True`; only `useRealNames=True` stores the table's register
name. -/
theorem C10_fillHardwareRegs_names (seg : SymbolsSegment) (u : Bool)
    (vram : Nat) (regName : String)
    (hmem : (vram, regName) ∈ SymbolsSegment.N64HardwareRegs) :
    ∃ c : ContextSymbol,
      sdGet (seg.fillHardwareRegs u).symbols vram = some c
      ∧ c.name = (if u then some regName else none)
      ∧ c.symType = .hardwarereg
      ∧ c.size = some 4
      ∧ c.isDefined = true
      ∧ c.isUserDeclared = true :=
  fillHardwareRegs_foldl_spec u SymbolsSegment.N64HardwareRegs seg vram regName hmem
    (by decide)

/-- Witness for C10 at the first hardware register with `useRealNames=False`:
the created symbol exists, its name is unset, and it carries the declared
type, size and flags. -/
theorem C10_witness :
    (0xA4040000, "SP_MEM_ADDR_REG") ∈ SymbolsSegment.N64HardwareRegs
    ∧ ∃ c : ContextSymbol,
        sdGet (emptyGlobalSegment.fillHardwareRegs false).symbols 0xA4040000 = some c
        ∧ c.name = (if false then some "SP_MEM_ADDR_REG" else none)
        ∧ c.symType = .hardwarereg
        ∧ c.size = some 4
        ∧ c.isDefined = true
        ∧ c.isUserDeclared = true :=
  ⟨by decide,
    C10_fillHardwareRegs_names emptyGlobalSegment false 0xA4040000 "SP_MEM_ADDR_REG"
      (by decide)⟩

theorem sdKeyRightStep_le {α : Type} (a : Nat) (acc : Option (Nat × α)) (p : Nat × α)
    (h : ∀ q : Nat × α, acc = some q → q.1 ≤ a) :
    ∀ q : Nat × α, sdKeyRightStep a acc p = some q → q.1 ≤ a := by
  intro q hq
  cases acc with
  | none =>
    simp only [sdKeyRightStep] at hq
    by_cases hp : p.1 ≤ a
    · rw [if_pos hp] at hq
      cases hq
      exact hp
    · rw [if_neg hp] at hq
      cases hq
  | some s =>
    simp only [sdKeyRightStep] at hq
    by_cases hp : p.1 ≤ a
    · rw [if_pos hp] at hq
      by_cases hlt : s.1 < p.1
      · rw [if_pos hlt] at hq
        cases hq
        exact hp
      · rw [if_neg hlt] at hq
        exact h q hq
    · rw [if_neg hp] at hq
      exact h q hq

theorem sdKeyRightFold_le {α : Type} (a : Nat) (l : List (Nat × α)) :
    ∀ (acc : Option (Nat × α)), (∀ q : Nat × α, acc = some q → q.1 ≤ a) →
      ∀ q : Nat × α, l.foldl (sdKeyRightStep a) acc = some q → q.1 ≤ a := by
  induction l with
  | nil => intro acc h q hq; exact h q hq
  | cons p rest ih =>
    intro acc h q hq
    exact ih (sdKeyRightStep a acc p) (sdKeyRightStep_le a acc p h) q hq

theorem sdGetKeyRight_key_le {α : Type} (l : List (Nat × α)) (a k : Nat) (v : α)
    (h : sdGetKeyRight l a = some (k, v)) : k ≤ a :=
  sdKeyRightFold_le a l none (fun q hq => by cases hq) (k, v) h

/-- C3: with `PRODUCE_SYMBOLS_PLUS_OFFSET` enabled,
`getSymbol(a, tryPlusOffset=True, checkUpperLimit=True)` returns none whenever
the predecessor symbol it finds has no declared size. -/
theorem C3_getSymbol_unknown_size_none (seg : SymbolsSegment) (a k : Nat)
    (c : ContextSymbol) (hpred : sdGetKeyRight seg.symbols a = some (k, c))
    (hsize : c.size = none) :
    SymbolsSegment.getSymbolModel true seg a true true = none := by
  have hk : k ≤ a := sdGetKeyRight_key_le seg.symbols a k c hpred
  simp [SymbolsSegment.getSymbolModel, hpred, ContextSymbol.getSizeModel, hsize, hk]

/-- A segment holding one symbol with no declared size, used as the concrete
input of the C3 witness. -/
def c3SampleSegment : SymbolsSegment :=
  { emptyGlobalSegment with
    symbols := [(0x80000100, ContextSymbol.new 0x80000100 false .data none)] }

/-- Witness for C3: the sample segment's predecessor lookup at `0x80000180`
finds the size-less symbol at `0x80000100`, and `getSymbol` returns none. -/
theorem C3_witness :
    sdGetKeyRight c3SampleSegment.symbols 0x80000180
        = some (0x80000100, ContextSymbol.new 0x80000100 false .data none)
    ∧ (ContextSymbol.new 0x80000100 false .data none).size = none
    ∧ SymbolsSegment.getSymbolModel true c3SampleSegment 0x80000180 true true = none :=
  ⟨by decide, by decide,
    C3_getSymbol_unknown_size_none c3SampleSegment 0x80000180 0x80000100
      (ContextSymbol.new 0x80000100 false .data none) (by decide) (by decide)⟩

theorem addSymbol_existing_fields (seg : SymbolsSegment) (address : Nat)
    (st : FileSectionType) (auto : Bool) (vrom : Option Nat) (c : ContextSymbol)
    (hc : sdGet seg.symbols address = some c) :
    (seg.addSymbol address st auto vrom).1.name = c.name
    ∧ (seg.addSymbol address st auto vrom).1.size = c.size
    ∧ (seg.addSymbol address st auto vrom).1.symType = c.symType
    ∧ (seg.addSymbol address st auto vrom).1.isUserDeclared = c.isUserDeclared
    ∧ (c.sectionType ≠ .unknownSection →
        (seg.addSymbol address st auto vrom).1.sectionType = c.sectionType) := by
  simp only [SymbolsSegment.addSymbol, hc]
  refine ⟨?_, ?_, ?_, ?_, ?_⟩
  · split <;> split <;> split <;> rfl
  · split <;> split <;> split <;> rfl
  · split <;> split <;> split <;> rfl
  · split <;> split <;> split <;> rfl
  · intro h
    rw [if_neg h]
    split <;> split <;> rfl

theorem addSymbol_get_self (seg : SymbolsSegment) (address : Nat)
    (st : FileSectionType) (auto : Bool) (vrom : Option Nat) :
    sdGet (seg.addSymbol address st auto vrom).2.symbols address
      = some (seg.addSymbol address st auto vrom).1 := by
  simp only [SymbolsSegment.addSymbol, SymbolsSegment.setSymbol]
  exact sdGet_sdInsert_self _ _ _

theorem addSymbol_get_ne (seg : SymbolsSegment) (address : Nat)
    (st : FileSectionType) (auto : Bool) (vrom : Option Nat) (a : Nat)
    (h : address ≠ a) :
    sdGet (seg.addSymbol address st auto vrom).2.symbols a = sdGet seg.symbols a := by
  simp only [SymbolsSegment.addSymbol, SymbolsSegment.setSymbol]
  exact sdGet_sdInsert_ne _ _ _ _ h

theorem addFunction_fst_fields (seg : SymbolsSegment) (address : Nat)
    (auto : Bool) (vrom : Option Nat) :
    (seg.addFunction address auto vrom).1.name = (seg.addSymbol address .text auto vrom).1.name
    ∧ (seg.addFunction address auto vrom).1.size = (seg.addSymbol address .text auto vrom).1.size
    ∧ (seg.addFunction address auto vrom).1.sectionType = .text := by
  simp only [SymbolsSegment.addFunction]
  exact ⟨by split <;> rfl, by split <;> rfl, by trivial⟩

theorem addBranchLabel_fst_fields (seg : SymbolsSegment) (address : Nat)
    (auto : Bool) (vrom : Option Nat) :
    (seg.addBranchLabel address auto vrom).1.name = (seg.addSymbol address .text auto vrom).1.name
    ∧ (seg.addBranchLabel address auto vrom).1.size = (seg.addSymbol address .text auto vrom).1.size
    ∧ (seg.addBranchLabel address auto vrom).1.sectionType
        = (seg.addSymbol address .text auto vrom).1.sectionType := by
  simp only [SymbolsSegment.addBranchLabel]
  exact ⟨by split <;> rfl, by split <;> rfl, by split <;> rfl⟩

theorem addJumpTable_fst_fields (seg : SymbolsSegment) (address : Nat)
    (auto : Bool) (vrom : Option Nat) :
    (seg.addJumpTable address auto vrom).1.name = (seg.addSymbol address .rodata auto vrom).1.name
    ∧ (seg.addJumpTable address auto vrom).1.size = (seg.addSymbol address .rodata auto vrom).1.size
    ∧ (seg.addJumpTable address auto vrom).1.sectionType
        = (seg.addSymbol address .rodata auto vrom).1.sectionType := by
  simp only [SymbolsSegment.addJumpTable]
  exact ⟨by split <;> rfl, by split <;> rfl, by split <;> rfl⟩

theorem addJumpTableLabel_fst_fields (seg : SymbolsSegment) (address : Nat)
    (auto : Bool) (vrom : Option Nat) :
    (seg.addJumpTableLabel address auto vrom).1.name = (seg.addSymbol address .text auto vrom).1.name
    ∧ (seg.addJumpTableLabel address auto vrom).1.size = (seg.addSymbol address .text auto vrom).1.size
    ∧ (seg.addJumpTableLabel address auto vrom).1.sectionType = .text :=
  ⟨rfl, rfl, rfl⟩

theorem addFunction_get_self (seg : SymbolsSegment) (address : Nat)
    (auto : Bool) (vrom : Option Nat) :
    sdGet (seg.addFunction address auto vrom).2.symbols address
      = some (seg.addFunction address auto vrom).1 := by
  simp only [SymbolsSegment.addFunction, SymbolsSegment.setSymbol]
  exact sdGet_sdInsert_self _ _ _

theorem addBranchLabel_get_self (seg : SymbolsSegment) (address : Nat)
    (auto : Bool) (vrom : Option Nat) :
    sdGet (seg.addBranchLabel address auto vrom).2.symbols address
      = some (seg.addBranchLabel address auto vrom).1 := by
  simp only [SymbolsSegment.addBranchLabel, SymbolsSegment.setSymbol]
  exact sdGet_sdInsert_self _ _ _

theorem addJumpTable_get_self (seg : SymbolsSegment) (address : Nat)
    (auto : Bool) (vrom : Option Nat) :
    sdGet (seg.addJumpTable address auto vrom).2.symbols address
      = some (seg.addJumpTable address auto vrom).1 := by
  simp only [SymbolsSegment.addJumpTable, SymbolsSegment.setSymbol]
  exact sdGet_sdInsert_self _ _ _

theorem addJumpTableLabel_get_self (seg : SymbolsSegment) (address : Nat)
    (auto : Bool) (vrom : Option Nat) :
    sdGet (seg.addJumpTableLabel address auto vrom).2.symbols address
      = some (seg.addJumpTableLabel address auto vrom).1 := by
  simp only [SymbolsSegment.addJumpTableLabel, SymbolsSegment.setSymbol]
  exact sdGet_sdInsert_self _ _ _

theorem addFunction_get_ne (seg : SymbolsSegment) (address : Nat)
    (auto : Bool) (vrom : Option Nat) (a : Nat) (h : address ≠ a) :
    sdGet (seg.addFunction address auto vrom).2.symbols a = sdGet seg.symbols a := by
  simp only [SymbolsSegment.addFunction, SymbolsSegment.setSymbol]
  rw [sdGet_sdInsert_ne _ _ _ _ h]
  exact addSymbol_get_ne seg address .text auto vrom a h

theorem addBranchLabel_get_ne (seg : SymbolsSegment) (address : Nat)
    (auto : Bool) (vrom : Option Nat) (a : Nat) (h : address ≠ a) :
    sdGet (seg.addBranchLabel address auto vrom).2.symbols a = sdGet seg.symbols a := by
  simp only [SymbolsSegment.addBranchLabel, SymbolsSegment.setSymbol]
  rw [sdGet_sdInsert_ne _ _ _ _ h]
  exact addSymbol_get_ne seg address .text auto vrom a h

theorem addJumpTable_get_ne (seg : SymbolsSegment) (address : Nat)
    (auto : Bool) (vrom : Option Nat) (a : Nat) (h : address ≠ a) :
    sdGet (seg.addJumpTable address auto vrom).2.symbols a = sdGet seg.symbols a := by
  simp only [SymbolsSegment.addJumpTable, SymbolsSegment.setSymbol]
  rw [sdGet_sdInsert_ne _ _ _ _ h]
  exact addSymbol_get_ne seg address .rodata auto vrom a h

theorem addJumpTableLabel_get_ne (seg : SymbolsSegment) (address : Nat)
    (auto : Bool) (vrom : Option Nat) (a : Nat) (h : address ≠ a) :
    sdGet (seg.addJumpTableLabel address auto vrom).2.symbols a = sdGet seg.symbols a := by
  simp only [SymbolsSegment.addJumpTableLabel, SymbolsSegment.setSymbol]
  rw [sdGet_sdInsert_ne _ _ _ _ h]
  exact addSymbol_get_ne seg address .text auto vrom a h

/-- C4 (amended): once a symbol's section is non-Unknown, `addSymbol`,
`addBranchLabel` and `addJumpTable` never change it (they upgrade only from
Unknown); but `addFunction` and `addJumpTableLabel` unconditionally force
the section of the touched symbol to Text, even over a different
non-Unknown value. -/
theorem C4_amended_section_behavior (seg : SymbolsSegment) (address a : Nat)
    (st : FileSectionType) (auto : Bool) (vrom : Option Nat) (c : ContextSymbol)
    (hc : sdGet seg.symbols a = some c) (hne : c.sectionType ≠ .unknownSection) :
    (sdGet (seg.addSymbol address st auto vrom).2.symbols a).map ContextSymbol.sectionType
        = some c.sectionType
    ∧ (sdGet (seg.addBranchLabel address auto vrom).2.symbols a).map ContextSymbol.sectionType
        = some c.sectionType
    ∧ (sdGet (seg.addJumpTable address auto vrom).2.symbols a).map ContextSymbol.sectionType
        = some c.sectionType
    ∧ (sdGet (seg.addFunction address auto vrom).2.symbols address).map ContextSymbol.sectionType
        = some .text
    ∧ (sdGet (seg.addJumpTableLabel address auto vrom).2.symbols address).map ContextSymbol.sectionType
        = some .text := by
  refine ⟨?_, ?_, ?_, ?_, ?_⟩
  · by_cases h : address = a
    · subst h
      rw [addSymbol_get_self]
      exact congrArg some ((addSymbol_existing_fields seg address st auto vrom c hc).2.2.2.2 hne)
    · rw [addSymbol_get_ne seg address st auto vrom a h, hc]
      rfl
  · by_cases h : address = a
    · subst h
      rw [addBranchLabel_get_self]
      have h1 := (addBranchLabel_fst_fields seg address auto vrom).2.2
      have h2 := (addSymbol_existing_fields seg address .text auto vrom c hc).2.2.2.2 hne
      exact congrArg some (h1.trans h2)
    · rw [addBranchLabel_get_ne seg address auto vrom a h, hc]
      rfl
  · by_cases h : address = a
    · subst h
      rw [addJumpTable_get_self]
      have h1 := (addJumpTable_fst_fields seg address auto vrom).2.2
      have h2 := (addSymbol_existing_fields seg address .rodata auto vrom c hc).2.2.2.2 hne
      exact congrArg some (h1.trans h2)
    · rw [addJumpTable_get_ne seg address auto vrom a h, hc]
      rfl
  · rw [addFunction_get_self]
    exact congrArg some (addFunction_fst_fields seg address auto vrom).2.2
  · rw [addJumpTableLabel_get_self]
    exact congrArg some (addJumpTableLabel_fst_fields seg address auto vrom).2.2

/-- Witness for C4 (amended) at a concrete segment holding a Data symbol at
`0x80000100`. -/
theorem C4_amended_witness :
    sdGet c3SampleSegment.symbols 0x80000100
        = some (ContextSymbol.new 0x80000100 false .data none)
    ∧ (ContextSymbol.new 0x80000100 false .data none).sectionType ≠ .unknownSection
    ∧ ((sdGet (c3SampleSegment.addSymbol 0x80000200 .bss false none).2.symbols 0x80000100).map
          ContextSymbol.sectionType
        = some (ContextSymbol.new 0x80000100 false .data none).sectionType
      ∧ (sdGet (c3SampleSegment.addBranchLabel 0x80000200 false none).2.symbols 0x80000100).map
          ContextSymbol.sectionType
        = some (ContextSymbol.new 0x80000100 false .data none).sectionType
      ∧ (sdGet (c3SampleSegment.addJumpTable 0x80000200 false none).2.symbols 0x80000100).map
          ContextSymbol.sectionType
        = some (ContextSymbol.new 0x80000100 false .data none).sectionType
      ∧ (sdGet (c3SampleSegment.addFunction 0x80000200 false none).2.symbols 0x80000200).map
          ContextSymbol.sectionType
        = some .text
      ∧ (sdGet (c3SampleSegment.addJumpTableLabel 0x80000200 false none).2.symbols 0x80000200).map
          ContextSymbol.sectionType
        = some .text) :=
  ⟨by decide, by decide,
    C4_amended_section_behavior c3SampleSegment 0x80000200 0x80000100 .bss false none
      (ContextSymbol.new 0x80000100 false .data none) (by decide) (by decide)⟩

/-- C4 counterexample: a symbol created with section Data (non-Unknown) has
its section changed to Text by a subsequent `addFunction` on the same
address, so the listed operations do not leave a non-Unknown section fixed. -/
theorem C4_counterexample :
    (sdGet (emptyGlobalSegment.addSymbol 0x80000100 .data false none).2.symbols 0x80000100).map
        ContextSymbol.sectionType = some .data
    ∧ FileSectionType.data ≠ FileSectionType.unknownSection
    ∧ (sdGet ((emptyGlobalSegment.addSymbol 0x80000100 .data false none).2.addFunction
          0x80000100 false none).2.symbols 0x80000100).map ContextSymbol.sectionType
        = some .text
    ∧ FileSectionType.text ≠ FileSectionType.data := by
  refine ⟨by decide, by decide, by decide, by decide⟩

/-- The type-clearing step of `SymbolRodata.analyze`
(src/spimdisasm/mips/symbols/MipsSymbolRodata.py, lines 82-94): a
double-typed symbol with an odd word count, or with a word pair that fails
the `isDouble` check, has its type cleared to `None`. `isDoubleAt` stands
for `self.isDouble` evaluated at each even word index. -/
def SymbolRodata.analyzeTypeStep (csym : ContextSymbol) (sizew : Nat)
    (isDoubleAt : Nat → Bool) : ContextSymbol :=
  if csym.isDoubleTy then
    if sizew % 2 ≠ 0 then { csym with symType := .noType }
    else if (List.range (sizew / 2)).any (fun i => !(isDoubleAt (i * 2))) then
      { csym with symType := .noType }
    else csym
  else csym

/-- C5 (amended): the type upgraders (`addFunction`, `addBranchLabel`,
`addJumpTable`, `addJumpTableLabel`) and the double-alignment check of
`SymbolRodata.analyze` never change any symbol's `name` or `size` (in
particular a user-declared symbol keeps both); they do not, however, protect
a user-declared symbol's `type` (see the counterexample). -/
theorem C5_amended_name_size_preserved (seg : SymbolsSegment) (address a : Nat)
    (auto : Bool) (vrom : Option Nat) (c : ContextSymbol)
    (hc : sdGet seg.symbols a = some c)
    (csym : ContextSymbol) (sizew : Nat) (isDoubleAt : Nat → Bool) :
    (sdGet (seg.addFunction address auto vrom).2.symbols a).map ContextSymbol.name
        = some c.name
    ∧ (sdGet (seg.addFunction address auto vrom).2.symbols a).map ContextSymbol.size
        = some c.size
    ∧ (sdGet (seg.addBranchLabel address auto vrom).2.symbols a).map ContextSymbol.name
        = some c.name
    ∧ (sdGet (seg.addBranchLabel address auto vrom).2.symbols a).map ContextSymbol.size
        = some c.size
    ∧ (sdGet (seg.addJumpTable address auto vrom).2.symbols a).map ContextSymbol.name
        = some c.name
    ∧ (sdGet (seg.addJumpTable address auto vrom).2.symbols a).map ContextSymbol.size
        = some c.size
    ∧ (sdGet (seg.addJumpTableLabel address auto vrom).2.symbols a).map ContextSymbol.name
        = some c.name
    ∧ (sdGet (seg.addJumpTableLabel address auto vrom).2.symbols a).map ContextSymbol.size
        = some c.size
    ∧ (SymbolRodata.analyzeTypeStep csym sizew isDoubleAt).name = csym.name
    ∧ (SymbolRodata.analyzeTypeStep csym sizew isDoubleAt).size = csym.size := by
  have hfun := addFunction_fst_fields seg address auto vrom
  have hbr := addBranchLabel_fst_fields seg address auto vrom
  have hjt := addJumpTable_fst_fields seg address auto vrom
  have hjtl := addJumpTableLabel_fst_fields seg address auto vrom
  refine ⟨?_, ?_, ?_, ?_, ?_, ?_, ?_, ?_, ?_, ?_⟩
  · by_cases h : address = a
    · subst h
      rw [addFunction_get_self]
      have hs := addSymbol_existing_fields seg address .text auto vrom c hc
      exact congrArg some (hfun.1.trans hs.1)
    · rw [addFunction_get_ne seg address auto vrom a h, hc]
      rfl
  · by_cases h : address = a
    · subst h
      rw [addFunction_get_self]
      have hs := addSymbol_existing_fields seg address .text auto vrom c hc
      exact congrArg some (hfun.2.1.trans hs.2.1)
    · rw [addFunction_get_ne seg address auto vrom a h, hc]
      rfl
  · by_cases h : address = a
    · subst h
      rw [addBranchLabel_get_self]
      have hs := addSymbol_existing_fields seg address .text auto vrom c hc
      exact congrArg some (hbr.1.trans hs.1)
    · rw [addBranchLabel_get_ne seg address auto vrom a h, hc]
      rfl
  · by_cases h : address = a
    · subst h
      rw [addBranchLabel_get_self]
      have hs := addSymbol_existing_fields seg address .text auto vrom c hc
      exact congrArg some (hbr.2.1.trans hs.2.1)
    · rw [addBranchLabel_get_ne seg address auto vrom a h, hc]
      rfl
  · by_cases h : address = a
    · subst h
      rw [addJumpTable_get_self]
      have hs := addSymbol_existing_fields seg address .rodata auto vrom c hc
      exact congrArg some (hjt.1.trans hs.1)
    · rw [addJumpTable_get_ne seg address auto vrom a h, hc]
      rfl
  · by_cases h : address = a
    · subst h
      rw [addJumpTable_get_self]
      have hs := addSymbol_existing_fields seg address .rodata auto vrom c hc
      exact congrArg some (hjt.2.1.trans hs.2.1)
    · rw [addJumpTable_get_ne seg address auto vrom a h, hc]
      rfl
  · by_cases h : address = a
    · subst h
      rw [addJumpTableLabel_get_self]
      have hs := addSymbol_existing_fields seg address .text auto vrom c hc
      exact congrArg some (hjtl.1.trans hs.1)
    · rw [addJumpTableLabel_get_ne seg address auto vrom a h, hc]
      rfl
  · by_cases h : address = a
    · subst h
      rw [addJumpTableLabel_get_self]
      have hs := addSymbol_existing_fields seg address .text auto vrom c hc
      exact congrArg some (hjtl.2.1.trans hs.2.1)
    · rw [addJumpTableLabel_get_ne seg address auto vrom a h, hc]
      rfl
  · simp only [SymbolRodata.analyzeTypeStep]
    split <;> try rfl
    split <;> try rfl
    split <;> rfl
  · simp only [SymbolRodata.analyzeTypeStep]
    split <;> try rfl
    split <;> try rfl
    split <;> rfl

/-- A user-declared, user-typed, user-sized symbol, used by the C5
counterexample and witness. -/
def c5UserSymbol : ContextSymbol :=
  { ContextSymbol.new 0x80000100 false .data none with
    symType := .userType "u32"
    isUserDeclared := true
    size := some 4
    name := some "myVar" }

/-- A segment holding only `c5UserSymbol`. -/
def c5Segment : SymbolsSegment :=
  { emptyGlobalSegment with symbols := [(0x80000100, c5UserSymbol)] }

/-- C5 counterexample: `addBranchLabel` re-types a user-declared symbol whose
type is a user type string: after the call the symbol's type is
`branchlabel`, no longer `u32`, even though `isUserDeclared` is set. -/
theorem C5_counterexample :
    c5UserSymbol.isUserDeclared = true
    ∧ (sdGet c5Segment.symbols 0x80000100).map ContextSymbol.symType
        = some (.userType "u32")
    ∧ (sdGet (c5Segment.addBranchLabel 0x80000100 false none).2.symbols 0x80000100).map
        ContextSymbol.symType = some .branchlabel
    ∧ SymType.branchlabel ≠ SymType.userType "u32" := by
  refine ⟨by decide, by decide, by decide, by decide⟩

/-- Witness for C5 (amended) at the concrete user-declared symbol. -/
theorem C5_amended_witness :
    sdGet c5Segment.symbols 0x80000100 = some c5UserSymbol
    ∧ ((sdGet (c5Segment.addFunction 0x80000200 false none).2.symbols 0x80000100).map
          ContextSymbol.name = some c5UserSymbol.name
      ∧ (sdGet (c5Segment.addFunction 0x80000200 false none).2.symbols 0x80000100).map
          ContextSymbol.size = some c5UserSymbol.size
      ∧ (sdGet (c5Segment.addBranchLabel 0x80000200 false none).2.symbols 0x80000100).map
          ContextSymbol.name = some c5UserSymbol.name
      ∧ (sdGet (c5Segment.addBranchLabel 0x80000200 false none).2.symbols 0x80000100).map
          ContextSymbol.size = some c5UserSymbol.size
      ∧ (sdGet (c5Segment.addJumpTable 0x80000200 false none).2.symbols 0x80000100).map
          ContextSymbol.name = some c5UserSymbol.name
      ∧ (sdGet (c5Segment.addJumpTable 0x80000200 false none).2.symbols 0x80000100).map
          ContextSymbol.size = some c5UserSymbol.size
      ∧ (sdGet (c5Segment.addJumpTableLabel 0x80000200 false none).2.symbols 0x80000100).map
          ContextSymbol.name = some c5UserSymbol.name
      ∧ (sdGet (c5Segment.addJumpTableLabel 0x80000200 false none).2.symbols 0x80000100).map
          ContextSymbol.size = some c5UserSymbol.size
      ∧ (SymbolRodata.analyzeTypeStep c5UserSymbol 3 (fun _ => true)).name = c5UserSymbol.name
      ∧ (SymbolRodata.analyzeTypeStep c5UserSymbol 3 (fun _ => true)).size = c5UserSymbol.size) :=
  ⟨by decide,
    C5_amended_name_size_preserved c5Segment 0x80000200 0x80000100 false none c5UserSymbol
      (by decide) c5UserSymbol 3 (fun _ => true)⟩

/-- Python set insert: add an element if not already present. -/
def setInsert (x : Nat) (l : List Nat) : List Nat :=
  if x ∈ l then l else x :: l

/-- Ordered insertion, used to model Python's `sorted`. -/
def insertSorted (x : Nat) : List Nat → List Nat
  | [] => [x]
  | y :: ys => if x ≤ y then x :: y :: ys else y :: insertSorted x ys

/-- Insertion sort, modelling Python's `sorted` over a set of offsets. -/
def sortOffsets : List Nat → List Nat
  | [] => []
  | x :: xs => insertSorted x (sortOffsets xs)

theorem mem_insertSorted (x y : Nat) (l : List Nat) :
    y ∈ insertSorted x l ↔ y = x ∨ y ∈ l := by
  induction l with
  | nil => simp [insertSorted]
  | cons z zs ih =>
    by_cases h : x ≤ z
    · simp [insertSorted, h]
    · simp [insertSorted, h, ih]
      tauto

theorem mem_sortOffsets (y : Nat) (l : List Nat) :
    y ∈ sortOffsets l ↔ y ∈ l := by
  induction l with
  | nil => simp [sortOffsets]
  | cons z zs ih => simp [sortOffsets, mem_insertSorted, ih]

theorem mem_setInsert (x y : Nat) (l : List Nat) :
    y ∈ setInsert x l ↔ y = x ∨ y ∈ l := by
  by_cases h : x ∈ l
  · simp only [setInsert, if_pos h]
    constructor
    · exact fun hy => Or.inr hy
    · rintro (rfl | hy)
      · exact h
      · exact hy
  · simp [setInsert, if_neg h]

/-- Modelled from the spec (§4.4 step 1): `SectionBase.checkAndCreateFirstSymbol`
(`MipsSectionBase.py` is not under src/): if no symbol exists at the section
start, create one, autogenerated and defined. -/
def checkAndCreateFirstSymbol (seg : SymbolsSegment) (vram : Nat)
    (st : FileSectionType) : SymbolsSegment :=
  match sdGet seg.symbols vram with
  | some _ => seg
  | none =>
    let r := seg.addSymbol vram st true none
    r.2.setSymbol vram { r.1 with isDefined := true }

/-- One iteration of the pointer-drain loop of `SectionBss.analyze`
(src/spimdisasm/mips/sections/MipsSectionBss.py, lines 41-45): a drained
pointer gets an autogenerated bss symbol unless `getSymbol(ptr,
tryPlusOffset=True)` already covers it. -/
def SectionBss.drainStep (produceFlag : Bool) (seg : SymbolsSegment)
    (ptr : Nat) : SymbolsSegment :=
  match SymbolsSegment.getSymbolModel produceFlag seg ptr true true with
  | some _ => seg
  | none => (seg.addSymbol ptr .bss true none).2

/-- The pointer-drain phase of `SectionBss.analyze` (lines 41-45):
`getAndPopPointerInDataReferencesRange` removes every `newPointersInData`
entry in `[lo, hi)` and yields them in ascending order. -/
def SectionBss.drainPointers (produceFlag : Bool) (seg : SymbolsSegment)
    (lo hi : Nat) : SymbolsSegment :=
  let ptrs := sortOffsets ((seg.newPointersInData.filter (fun p => lo ≤ p ∧ p < hi)).dedup)
  let seg0 := { seg with
    newPointersInData := seg.newPointersInData.filter (fun p => ¬(lo ≤ p ∧ p < hi)) }
  ptrs.foldl (SectionBss.drainStep produceFlag) seg0

/-- The offset-collection phase of `SectionBss.analyze` (lines 48-60): for
every symbol in the bss VRAM range, record `vram - bssVramStart`, and when
the symbol has a declared size also record the synthetic boundary offset
`vram + size - bssVramStart`; offsets from
`context.offsetSymbols[Bss]` seed the set. -/
def SectionBss.collectOffsets (seg : SymbolsSegment) (lo hi : Nat)
    (initial : List Nat) : List Nat :=
  (SymbolsSegment.getSymbolsRangeModel seg lo hi).foldl
    (fun acc p =>
      let acc1 := setInsert (p.1 - lo) acc
      match p.2.size with
      | some sz => setInsert (p.1 + sz - lo) acc1
      | none => acc1)
    initial

/-- The section-marking phase of `SectionBss.analyze` (lines 51-53): every
symbol in the bss range gets `sectionType = Bss`. -/
def SectionBss.markRange (seg : SymbolsSegment) (lo hi : Nat) : SymbolsSegment :=
  { seg with
    symbols := seg.symbols.map
      (fun p => if lo ≤ p.1 ∧ p.1 < hi then (p.1, { p.2 with sectionType := .bss }) else p) }

/-- One emitted `SymbolBss`: its offset within the section, its vram, and
the `space` argument passed to the `SymbolBss` constructor (a possibly
negative Python int). -/
structure BssSymbolEmit where
  offset : Nat
  vram : Nat
  space : Int
  deriving DecidableEq, Repr

/-- The emission loop of `SectionBss.analyze` (lines 63-87): one `SymbolBss`
per sorted offset; `space` starts as `bssTotalSize - offset` and becomes
`nextOffset - offset` when a next offset exists and is ≤ `bssTotalSize`. -/
def SectionBss.emitLoop (bssVramStart bssTotalSize : Nat) : List Nat → List BssSymbolEmit
  | [] => []
  | o :: rest =>
    let space : Int :=
      match rest with
      | [] => (bssTotalSize : Int) - (o : Int)
      | o2 :: _ =>
        if o2 ≤ bssTotalSize then (o2 : Int) - (o : Int)
        else (bssTotalSize : Int) - (o : Int)
    { offset := o, vram := bssVramStart + o, space := space }
      :: SectionBss.emitLoop bssVramStart bssTotalSize rest

/-- The `ContextSymbol` side effect of constructing one `SymbolBss`
(src/spimdisasm/mips/symbols/MipsSymbolBase.py, lines 14-26 via
MipsSymbolBss.py): `addSymbol(vram, sectionType, isAutogenerated=True)`
followed by setting `vromAddress`, `isDefined` and `sectionType`. -/
def SymbolBss.constructorEffect (seg : SymbolsSegment) (vram : Nat)
    (vrom : Option Nat) : SymbolsSegment :=
  let r := seg.addSymbol vram .bss true none
  r.2.setSymbol vram { r.1 with vromAddress := vrom, isDefined := true, sectionType := .bss }

/-- The fixed inputs of one bss section, from `SectionBss.__init__` (lines
16-24): `bssTotalSize = bssVramEnd - bssVramStart`. -/
structure SectionBssInput where
  vromStart : Nat
  bssVramStart : Nat
  bssVramEnd : Nat
  deriving DecidableEq, Repr

/-- The result of `SectionBss.analyze`: the emitted `SymbolBss` list (in
loop order) and the final segment state. -/
structure SectionBssResult where
  emitted : List BssSymbolEmit
  segment : SymbolsSegment
  deriving DecidableEq, Repr

/-- `SectionBss.analyze` (src/spimdisasm/mips/sections/MipsSectionBss.py,
lines 36-87), phase by phase: create the first symbol if missing, drain
pointer candidates into autogenerated symbols, mark and collect offsets
(with synthetic boundary offsets for declared sizes), sort, and emit one
`SymbolBss` per offset. -/
def SectionBss.analyzeModel (produceFlag : Bool) (sec : SectionBssInput)
    (offsetSymbolsBss : List Nat) (seg : SymbolsSegment) : SectionBssResult :=
  let total := sec.bssVramEnd - sec.bssVramStart
  let seg1 := checkAndCreateFirstSymbol seg sec.bssVramStart .bss
  let seg2 := SectionBss.drainPointers produceFlag seg1 sec.bssVramStart sec.bssVramEnd
  let offsets := SectionBss.collectOffsets seg2 sec.bssVramStart sec.bssVramEnd
    offsetSymbolsBss.dedup
  let seg3 := SectionBss.markRange seg2 sec.bssVramStart sec.bssVramEnd
  let sortedOffsets := sortOffsets offsets
  let emitted := SectionBss.emitLoop sec.bssVramStart total sortedOffsets
  let seg4 := emitted.foldl
    (fun s e => SymbolBss.constructorEffect s e.vram (some (sec.vromStart + e.offset))) seg3
  { emitted := emitted, segment := seg4 }

/-- The C1 adjacency relation between consecutively emitted bss symbols:
the earlier one's `space` is the offset difference when the next offset is
within the section, and the remaining size otherwise. -/
def bssAdjacentSpace (total : Nat) (e1 e2 : BssSymbolEmit) : Prop :=
  (e2.offset ≤ total → e1.space = (e2.offset : Int) - (e1.offset : Int))
  ∧ (total < e2.offset → e1.space = (total : Int) - (e1.offset : Int))

theorem emitLoop_eq_cons (s t o : Nat) (rest : List Nat) :
    SectionBss.emitLoop s t (o :: rest)
      = { offset := o
          vram := s + o
          space :=
            match rest with
            | [] => (t : Int) - (o : Int)
            | o2 :: _ => if o2 ≤ t then (o2 : Int) - (o : Int) else (t : Int) - (o : Int) }
        :: SectionBss.emitLoop s t rest := rfl

theorem emitLoop_chain (s t : Nat) (l : List Nat) :
    List.Chain' (bssAdjacentSpace t) (SectionBss.emitLoop s t l) := by
  induction l with
  | nil => exact List.chain'_nil
  | cons o rest ih =>
    cases rest with
    | nil => simp [SectionBss.emitLoop]
    | cons o2 rest2 =>
      rw [emitLoop_eq_cons, emitLoop_eq_cons]
      refine List.chain'_cons.mpr ⟨⟨fun h2 => ?_, fun h2 => ?_⟩, ?_⟩
      · simp only [if_pos h2]
      · simp only [if_neg (not_le.mpr h2)]
      · rw [← emitLoop_eq_cons]
        exact ih

theorem emitLoop_getLast_space (s t : Nat) (l : List Nat) (e : BssSymbolEmit)
    (h : (SectionBss.emitLoop s t l).getLast? = some e) :
    e.space = (t : Int) - (e.offset : Int) := by
  induction l with
  | nil => cases h
  | cons o rest ih =>
    cases rest with
    | nil =>
      rw [emitLoop_eq_cons] at h
      simp only [SectionBss.emitLoop, List.getLast?_singleton, Option.some.injEq] at h
      rw [← h]
    | cons o2 rest2 =>
      rw [emitLoop_eq_cons, emitLoop_eq_cons, List.getLast?_cons_cons,
        ← emitLoop_eq_cons] at h
      exact ih h

theorem emitLoop_map_offset (s t : Nat) (l : List Nat) :
    (SectionBss.emitLoop s t l).map BssSymbolEmit.offset = l := by
  induction l with
  | nil => rfl
  | cons o rest ih => rw [emitLoop_eq_cons, List.map_cons, ih]

/-- C1 (amended): after `SectionBss.analyze`, for adjacent emitted symbols
at offsets `o_k < o_{k+1}` the k-th symbol's space is `o_{k+1} - o_k` only
when `o_{k+1} ≤ bssTotalSize`; when a synthetic boundary offset beyond the
section end follows, the space is `bssTotalSize - o_k` instead. The last
emitted symbol's space is always `bssTotalSize - o_last`. -/
theorem C1_amended_bss_spaces (produceFlag : Bool) (sec : SectionBssInput)
    (offsetSymbolsBss : List Nat) (seg : SymbolsSegment) :
    List.Chain' (bssAdjacentSpace (sec.bssVramEnd - sec.bssVramStart))
      (SectionBss.analyzeModel produceFlag sec offsetSymbolsBss seg).emitted
    ∧ (∀ e : BssSymbolEmit,
        (SectionBss.analyzeModel produceFlag sec offsetSymbolsBss seg).emitted.getLast?
          = some e →
        e.space = ((sec.bssVramEnd - sec.bssVramStart : Nat) : Int) - (e.offset : Int)) :=
  ⟨emitLoop_chain _ _ _, fun e he => emitLoop_getLast_space _ _ _ e he⟩

/-- A user-declared bss symbol with declared size 8, for the in-range
scenarios. -/
def bssSample1Symbol : ContextSymbol :=
  { ContextSymbol.new 0x80100000 false .bss none with
    size := some 8
    isUserDeclared := true
    name := some "a" }

/-- A segment holding only `bssSample1Symbol`. -/
def bssSampleSegment : SymbolsSegment :=
  { emptyGlobalSegment with symbols := [(0x80100000, bssSample1Symbol)] }

/-- The bss section `[0x80100000, 0x80100020)`. -/
def bssSampleInput : SectionBssInput :=
  { vromStart := 0x400, bssVramStart := 0x80100000, bssVramEnd := 0x80100020 }

/-- A user-declared bss symbol whose declared size 0x20 overruns its
section. -/
def bssOverrunSymbol : ContextSymbol :=
  { ContextSymbol.new 0x80100000 false .bss none with
    size := some 0x20
    isUserDeclared := true
    name := some "big" }

/-- A segment holding only `bssOverrunSymbol`. -/
def bssOverrunSegment : SymbolsSegment :=
  { emptyGlobalSegment with symbols := [(0x80100000, bssOverrunSymbol)] }

/-- The bss section `[0x80100000, 0x80100010)` (total size 0x10), smaller
than `bssOverrunSymbol`'s declared size. -/
def bssOverrunInput : SectionBssInput :=
  { vromStart := 0x400, bssVramStart := 0x80100000, bssVramEnd := 0x80100010 }

/-- C1 counterexample: with one symbol at the section start whose declared
size 0x20 exceeds the section's total size 0x10, `SectionBss.analyze` emits
two adjacent symbols at offsets 0 and 0x20 whose first space is 0x10, not
`0x20 - 0`: adjacent emitted spaces do not always equal the offset
difference. -/
theorem C1_counterexample :
    (SectionBss.analyzeModel true bssOverrunInput [] bssOverrunSegment).emitted
      = [{ offset := 0, vram := 0x80100000, space := (0x10 : Int) },
         { offset := 0x20, vram := 0x80100020, space := (-0x10 : Int) }]
    ∧ ((0x10 : Int) ≠ (0x20 : Int) - (0 : Int)) := by
  refine ⟨by decide, by decide⟩

/-- Witness for C1 (amended) on the in-range sample: the amended adjacency
relation holds for the emitted list, and the last emitted symbol's space is
`bssTotalSize - o_last`. -/
theorem C1_amended_witness :
    List.Chain' (bssAdjacentSpace (bssSampleInput.bssVramEnd - bssSampleInput.bssVramStart))
      (SectionBss.analyzeModel true bssSampleInput [] bssSampleSegment).emitted
    ∧ (SectionBss.analyzeModel true bssSampleInput [] bssSampleSegment).emitted.getLast?
        = some { offset := 8, vram := 0x80100008, space := (0x18 : Int) }
    ∧ (0x18 : Int)
        = ((bssSampleInput.bssVramEnd - bssSampleInput.bssVramStart : Nat) : Int) - ((8 : Nat) : Int) :=
  ⟨(C1_amended_bss_spaces true bssSampleInput [] bssSampleSegment).1,
    by decide,
    (C1_amended_bss_spaces true bssSampleInput [] bssSampleSegment).2
      { offset := 8, vram := 0x80100008, space := (0x18 : Int) } (by decide)⟩

theorem sdGet_mem {α : Type} (l : List (Nat × α)) (a : Nat) (c : α)
    (h : sdGet l a = some c) : (a, c) ∈ l := by
  induction l with
  | nil => cases h
  | cons p rest ih =>
    obtain ⟨k, v⟩ := p
    by_cases hk : k = a
    · subst hk
      rw [sdGet, if_pos rfl] at h
      cases h
      exact List.mem_cons_self _ _
    · rw [sdGet, if_neg hk] at h
      exact List.mem_cons_of_mem _ (ih h)

theorem addSymbol_preserves_size (seg : SymbolsSegment) (address : Nat)
    (st : FileSectionType) (auto : Bool) (vrom : Option Nat) (a : Nat)
    (c : ContextSymbol) (hc : sdGet seg.symbols a = some c) :
    ∃ c2 : ContextSymbol,
      sdGet (seg.addSymbol address st auto vrom).2.symbols a = some c2
      ∧ c2.size = c.size := by
  by_cases h : address = a
  · subst h
    exact ⟨_, addSymbol_get_self seg address st auto vrom,
      (addSymbol_existing_fields seg address st auto vrom c hc).2.1⟩
  · exact ⟨c, (addSymbol_get_ne seg address st auto vrom a h).trans hc, rfl⟩

theorem checkAndCreateFirstSymbol_preserves (seg : SymbolsSegment) (vram : Nat)
    (st : FileSectionType) (a : Nat) (c : ContextSymbol)
    (hc : sdGet seg.symbols a = some c) :
    sdGet (checkAndCreateFirstSymbol seg vram st).symbols a = some c := by
  unfold checkAndCreateFirstSymbol
  cases hv : sdGet seg.symbols vram with
  | some d => exact hc
  | none =>
    have hne : vram ≠ a := by
      intro he
      subst he
      rw [hv] at hc
      cases hc
    simp only [SymbolsSegment.setSymbol, SymbolsSegment.addSymbol]
    rw [sdGet_sdInsert_ne _ _ _ _ hne, sdGet_sdInsert_ne _ _ _ _ hne]
    exact hc

theorem drainStep_preserves_size (produceFlag : Bool) (seg : SymbolsSegment)
    (ptr a : Nat) (c : ContextSymbol) (hc : sdGet seg.symbols a = some c) :
    ∃ c2 : ContextSymbol,
      sdGet (SectionBss.drainStep produceFlag seg ptr).symbols a = some c2
      ∧ c2.size = c.size := by
  unfold SectionBss.drainStep
  cases SymbolsSegment.getSymbolModel produceFlag seg ptr true true with
  | some d => exact ⟨c, hc, rfl⟩
  | none => exact addSymbol_preserves_size seg ptr .bss true none a c hc

theorem drainFold_preserves_size (produceFlag : Bool) (ptrs : List Nat) :
    ∀ (seg : SymbolsSegment) (a : Nat) (c : ContextSymbol),
      sdGet seg.symbols a = some c →
      ∃ c2 : ContextSymbol,
        sdGet (ptrs.foldl (SectionBss.drainStep produceFlag) seg).symbols a = some c2
        ∧ c2.size = c.size := by
  induction ptrs with
  | nil => exact fun seg a c hc => ⟨c, hc, rfl⟩
  | cons p rest ih =>
    intro seg a c hc
    obtain ⟨c1, hc1, hs1⟩ := drainStep_preserves_size produceFlag seg p a c hc
    obtain ⟨c2, hc2, hs2⟩ := ih (SectionBss.drainStep produceFlag seg p) a c1 hc1
    exact ⟨c2, hc2, hs2.trans hs1⟩

theorem drainPointers_preserves_size (produceFlag : Bool) (seg : SymbolsSegment)
    (lo hi a : Nat) (c : ContextSymbol) (hc : sdGet seg.symbols a = some c) :
    ∃ c2 : ContextSymbol,
      sdGet (SectionBss.drainPointers produceFlag seg lo hi).symbols a = some c2
      ∧ c2.size = c.size := by
  unfold SectionBss.drainPointers
  exact drainFold_preserves_size produceFlag _ _ a c hc


/-- The per-symbol accumulator step of `SectionBss.collectOffsets`, named so
the fold lemmas below state facts about the exact function being folded. -/
def SectionBss.collectStep (lo : Nat) (acc : List Nat) (p : Nat × ContextSymbol) :
    List Nat :=
  let acc1 := setInsert (p.1 - lo) acc
  match p.2.size with
  | some sz => setInsert (p.1 + sz - lo) acc1
  | none => acc1

theorem collectOffsets_eq_foldl (seg : SymbolsSegment) (lo hi : Nat)
    (initial : List Nat) :
    SectionBss.collectOffsets seg lo hi initial
      = (SymbolsSegment.getSymbolsRangeModel seg lo hi).foldl
          (SectionBss.collectStep lo) initial := rfl

theorem collectStep_mono (lo : Nat) (acc : List Nat) (p : Nat × ContextSymbol)
    (x : Nat) (hx : x ∈ acc) : x ∈ SectionBss.collectStep lo acc p := by
  unfold SectionBss.collectStep
  cases p.2.size with
  | some sz =>
    exact (mem_setInsert _ _ _).mpr (Or.inr ((mem_setInsert _ _ _).mpr (Or.inr hx)))
  | none => exact (mem_setInsert _ _ _).mpr (Or.inr hx)

theorem collectFold_mono (lo : Nat) (l : List (Nat × ContextSymbol)) :
    ∀ (acc : List Nat) (x : Nat), x ∈ acc →
      x ∈ l.foldl (SectionBss.collectStep lo) acc := by
  induction l with
  | nil => exact fun acc x hx => hx
  | cons p rest ih =>
    intro acc x hx
    exact ih _ x (collectStep_mono lo acc p x hx)

theorem collectFold_mem_synthetic (lo : Nat) (l : List (Nat × ContextSymbol))
    (v sz : Nat) (c : ContextSymbol) (hmem : (v, c) ∈ l) (hsz : c.size = some sz) :
    ∀ acc : List Nat, (v + sz - lo) ∈ l.foldl (SectionBss.collectStep lo) acc := by
  induction l with
  | nil => cases hmem
  | cons p rest ih =>
    intro acc
    rcases List.mem_cons.mp hmem with heq | hrest
    · rw [List.foldl_cons]
      apply collectFold_mono
      rw [← heq]
      unfold SectionBss.collectStep
      rw [hsz]
      exact (mem_setInsert _ _ _).mpr (Or.inl rfl)
    · rw [List.foldl_cons]
      exact ih hrest _

theorem mem_getSymbolsRange (seg : SymbolsSegment) (lo hi v : Nat)
    (c : ContextSymbol) (h : sdGet seg.symbols v = some c)
    (hlo : lo ≤ v) (hhi : v < hi) :
    (v, c) ∈ SymbolsSegment.getSymbolsRangeModel seg lo hi := by
  unfold SymbolsSegment.getSymbolsRangeModel sdRange
  exact List.mem_filter.mpr ⟨sdGet_mem _ _ _ h, by simp [hlo, hhi]⟩

/-- C2 (amended): during `SectionBss.analyze`, every symbol in the bss range
with a declared size inserts a synthetic boundary offset at
`vram + size - bssVramStart`, and a `SymbolBss` IS emitted at that offset as
well (the source produces an extra symbol there, creating an autogenerated
context symbol at that address); the boundary also caps the preceding
symbol's space exactly as in C1. -/
theorem C2_amended_synthetic_offset_emitted (produceFlag : Bool)
    (sec : SectionBssInput) (offsetSymbolsBss : List Nat) (seg : SymbolsSegment)
    (v sz : Nat) (c : ContextSymbol)
    (hc : sdGet seg.symbols v = some c) (hsz : c.size = some sz)
    (hlo : sec.bssVramStart ≤ v) (hhi : v < sec.bssVramEnd) :
    ∃ e ∈ (SectionBss.analyzeModel produceFlag sec offsetSymbolsBss seg).emitted,
      e.offset = v + sz - sec.bssVramStart := by
  have h1 := checkAndCreateFirstSymbol_preserves seg sec.bssVramStart .bss v c hc
  obtain ⟨c2, hc2, hs2⟩ := drainPointers_preserves_size produceFlag
    (checkAndCreateFirstSymbol seg sec.bssVramStart .bss)
    sec.bssVramStart sec.bssVramEnd v c h1
  have hmem : (v, c2) ∈ SymbolsSegment.getSymbolsRangeModel
      (SectionBss.drainPointers produceFlag
        (checkAndCreateFirstSymbol seg sec.bssVramStart .bss)
        sec.bssVramStart sec.bssVramEnd)
      sec.bssVramStart sec.bssVramEnd :=
    mem_getSymbolsRange _ _ _ v c2 hc2 hlo hhi
  have hoff : (v + sz - sec.bssVramStart) ∈ SectionBss.collectOffsets
      (SectionBss.drainPointers produceFlag
        (checkAndCreateFirstSymbol seg sec.bssVramStart .bss)
        sec.bssVramStart sec.bssVramEnd)
      sec.bssVramStart sec.bssVramEnd offsetSymbolsBss.dedup := by
    rw [collectOffsets_eq_foldl]
    exact collectFold_mem_synthetic sec.bssVramStart _ v sz c2 hmem (hs2.trans hsz) _
  have hsort := (mem_sortOffsets (v + sz - sec.bssVramStart) _).mpr hoff
  have hmap : (v + sz - sec.bssVramStart) ∈
      (SectionBss.emitLoop sec.bssVramStart (sec.bssVramEnd - sec.bssVramStart)
        (sortOffsets (SectionBss.collectOffsets
          (SectionBss.drainPointers produceFlag
            (checkAndCreateFirstSymbol seg sec.bssVramStart .bss)
            sec.bssVramStart sec.bssVramEnd)
          sec.bssVramStart sec.bssVramEnd offsetSymbolsBss.dedup))).map
        BssSymbolEmit.offset := by
    rw [emitLoop_map_offset]
    exact hsort
  obtain ⟨e, he, heq⟩ := List.mem_map.mp hmap
  exact ⟨e, he, heq⟩

/-- C2 counterexample: with one size-8 symbol at the start of
`[0x80100000, 0x80100020)` and no real symbol at `0x80100008`, the synthetic
boundary offset 8 nevertheless gets its own emitted `SymbolBss` (with space
0x18), refuting "no new SymbolBss is emitted at that offset". -/
theorem C2_counterexample :
    sdGet bssSampleSegment.symbols 0x80100008 = none
    ∧ (SectionBss.analyzeModel true bssSampleInput [] bssSampleSegment).emitted
      = [{ offset := 0, vram := 0x80100000, space := (8 : Int) },
         { offset := 8, vram := 0x80100008, space := (0x18 : Int) }] := by
  refine ⟨by decide, by decide⟩

/-- Witness for C2 (amended) on the sample section: the size-8 symbol at the
section start yields an emitted `SymbolBss` at offset 8. -/
theorem C2_amended_witness :
    sdGet bssSampleSegment.symbols 0x80100000 = some bssSample1Symbol
    ∧ bssSample1Symbol.size = some 8
    ∧ ∃ e ∈ (SectionBss.analyzeModel true bssSampleInput [] bssSampleSegment).emitted,
        e.offset = 0x80100000 + 8 - bssSampleInput.bssVramStart :=
  ⟨by decide, by decide,
    C2_amended_synthetic_offset_emitted true bssSampleInput [] bssSampleSegment
      0x80100000 8 bssSample1Symbol (by decide) (by decide) (by decide) (by decide)⟩

/-- The symbolic value printed by `.word` lines, abstracting the value
strings built by `SymbolBase.getNthWordAsWords`
(src/spimdisasm/mips/symbols/MipsSymbolBase.py, lines 218-261): the raw hex
word, `name + offset` through a context symbol, `name + offset` through a
reloc record, or a named constant. -/
inductive WordValue where
  | rawHex (w : Nat)
  | symPlusOff (symVram target : Nat)
  | relocNamePlus (relocName : String) (w : Nat)
  | constantName (value : Nat)
  deriving DecidableEq, Repr

/-- One line group of emitted assembly, abstracting the text produced by
`SymbolBase.disassembleAsData` and `SymbolBss.disassembleAsBss`. Each
constructor carries every datum its source text depends on besides the
fixed configuration and Context, so equal item lists denote byte-identical
emitted strings for a fixed Context snapshot and configuration. -/
inductive AsmItem where
  | refsComment (csym : ContextSymbol)
  | labelGlobal (csym : ContextSymbol)
  | labelName (csym : ContextSymbol)
  | alignDouble
  | alignString (sn64 : Bool)
  | bytesShortsItem (sym1 sym2 sym3 : Option ContextSymbol) (w : Nat)
      (byteMode shortMode : Bool)
  | floatItem (label : Option ContextSymbol) (w : Nat)
  | doubleItem (label : Option ContextSymbol) (w0 w1 : Nat)
  | asciiItem (s : String)
  | wordItem (label : Option ContextSymbol) (w : Nat) (value : WordValue)
  | spaceDirective (space : Int)
  deriving DecidableEq, Repr

/-- The inputs of one `SymbolBase` data emitter that stay fixed across
`disassemble` calls: the symbol's words, vram, its context symbol, the
owning segment (single-segment model of the Context search), the reloc and
constants tables, the addend/constant permissions computed by
`canUseAddendsOnData`/`canUseConstantsOnData` (not under src/, passed as
booleans), `PRODUCE_SYMBOLS_PLUS_OFFSET`, and whether the compiler is
SN64/PSYQ. -/
structure DataSymInputs where
  words : List Nat
  vram : Nat
  csym : ContextSymbol
  seg : SymbolsSegment
  relocInfos : List (Nat × RelocInfo)
  constantsKeys : List Nat
  canRefAddends : Bool
  canRefConstants : Bool
  produceFlag : Bool
  sn64 : Bool
  deriving DecidableEq, Repr

/-- `SymbolBase.isString` (lines 75-76): string-typed and the decode-failure
latch not set. -/
def SymbolBase.isStringAct (inp : DataSymInputs) (latch : Bool) : Bool :=
  inp.csym.isStringTy && !latch

/-- `SymbolBase.isByte` (lines 69-70). -/
def SymbolBase.isByteAct (inp : DataSymInputs) (latch : Bool) : Bool :=
  inp.csym.isByteTy && !(SymbolBase.isStringAct inp latch)

/-- `SymbolBase.isShort` (lines 72-73). -/
def SymbolBase.isShortAct (inp : DataSymInputs) : Bool :=
  inp.csym.isShortTy

/-- `SymbolBase.isFloat` (lines 78-84): float-typed and the exponent bits of
the word are not all ones. -/
def SymbolBase.isFloatAct (inp : DataSymInputs) (i : Nat) : Bool :=
  inp.csym.isFloatTy && ((inp.words.getD i 0) &&& 0x7F800000 ≠ 0x7F800000)

/-- `SymbolBase.isDouble` (lines 86-97): double-typed, a full word pair in
range, exponent bits not all ones, and no symbol at the second word. -/
def SymbolBase.isDoubleAct (inp : DataSymInputs) (i : Nat) : Bool :=
  inp.csym.isDoubleTy && decide (i + 1 < inp.words.length)
    && (((inp.words.getD i 0 <<< 32) ||| inp.words.getD (i + 1) 0)
          &&& 0x7FF0000000000000 ≠ 0x7FF0000000000000)
    && (sdGet inp.seg.symbols (inp.vram + i * 4 + 4)).isNone

/-- The label lookup of the word/float/double renderers (lines 227-228,
270-271, 292-293): for a non-first word, the symbol exactly at the word's
vram. -/
def labelAtModel (inp : DataSymInputs) (i : Nat) : Option ContextSymbol :=
  if i ≠ 0 then sdGet inp.seg.symbols (inp.vram + 4 * i) else none

/-- Modelled from the spec (§6): `Utils.wordsToBytes` (Utils.py is not under
src/) for the default big-endian input. -/
def wordsToBytesBE (words : List Nat) : List Nat :=
  words.foldr
    (fun w acc => (w >>> 24) % 256 :: (w >>> 16) % 256 :: (w >>> 8) % 256 :: w % 256 :: acc)
    []

/-- Modelled from the spec (§4.5, §7): the scanning core of
`Utils.decodeString` (Utils.py is not under src/): decode bytes from an
offset until a NUL terminator, failing on a byte the configured encoding
rejects (the model accepts printable ASCII; the embedded scenarios use only
such bytes or clearly invalid ones) or on a missing terminator. Returns the
decoded string and the raw size in bytes excluding the terminator. -/
def decodeStringAux : List Nat → String → Option (String × Nat)
  | [], _ => none
  | b :: rest, acc =>
    if b = 0 then some (acc, acc.length)
    else if 0x20 ≤ b ∧ b ≤ 0x7E then decodeStringAux rest (acc.push (Char.ofNat b))
    else none

/-- Modelled from the spec (§4.5, §7): `Utils.decodeString` from a byte
buffer at an offset. -/
def decodeStringModel (buffer : List Nat) (offset : Nat) : Option (String × Nat) :=
  decodeStringAux (buffer.drop offset) ""

/-- `SymbolBase.getNthWordAsString` (lines 309-339): decode at the word's
offset; then the remaining bytes of the terminator's word must be zero
(`RuntimeError` otherwise); on success skip `rawStringSize / 4` extra
words. `none` stands for the `UnicodeDecodeError`/`RuntimeError` paths. -/
def SymbolBase.getNthWordAsStringModel (inp : DataSymInputs) (i : Nat) :
    Option (String × Nat) :=
  let localOffset := 4 * i
  let buffer := wordsToBytesBE inp.words
  match decodeStringModel buffer localOffset with
  | none => none
  | some (s, rawSize) =>
    let checkStart := localOffset + rawSize
    let checkEnd := min (checkStart / 4 * 4 + 4) buffer.length
    if (List.range (checkEnd - checkStart)).all
        (fun j => buffer.getD (checkStart + j) 0 = 0) then
      some (s, rawSize / 4)
    else none

/-- The value resolution of `SymbolBase.getNthWordAsWords` (lines 230-253):
a reloc record wins (resolving `referencedSectionVram + w` through the
context with `checkUpperLimit=False`, or printing the reloc name), else a
symbol reference (with addend only if permitted; addends on functions are
suppressed, `isElfNotype` symbols are skipped), else a named constant when
permitted, else the raw hex word. -/
def resolveWordValue (inp : DataSymInputs) (i : Nat) : WordValue :=
  let w := inp.words.getD i 0
  let localOffset := 4 * i
  match sdGet inp.relocInfos (inp.vram + localOffset) with
  | some ri =>
    match ri.referencedSectionVram with
    | some rsv =>
      let relocVram := rsv + w
      match SymbolsSegment.getSymbolModel inp.produceFlag inp.seg relocVram true false with
      | some cs => .symPlusOff cs.vram relocVram
      | none => .rawHex w
    | none => .relocNamePlus ri.relocName w
  | none =>
    match SymbolsSegment.getSymbolModel inp.produceFlag inp.seg w inp.canRefAddends true with
    | some sr =>
      if (sr.symType ≠ .function ∨ w = sr.vram) ∧ sr.isElfNotype = false then
        .symPlusOff sr.vram w
      else .rawHex w
    | none =>
      if inp.canRefConstants ∧ w ∈ inp.constantsKeys then .constantName w
      else .rawHex w

/-- The per-word dispatch of `SymbolBase.disassembleAsData` (lines 415-437):
mid-word symbols or byte/short typing force a bytes/shorts rendering; then
float, double, string (latching the failure flag and falling back to a word
on decode failure), and plain word in that order. Returns the rendered
item, the extra words to skip, and the updated latch. -/
def SymbolBase.renderWord (inp : DataSymInputs) (latch : Bool) (i : Nat) :
    AsmItem × Nat × Bool :=
  let w := inp.words.getD i 0
  let sym1 := sdGet inp.seg.symbols (inp.vram + 4 * i + 1)
  let sym2 := sdGet inp.seg.symbols (inp.vram + 4 * i + 2)
  let sym3 := sdGet inp.seg.symbols (inp.vram + 4 * i + 3)
  if sym1.isSome || sym2.isSome || sym3.isSome
      || SymbolBase.isByteAct inp latch || SymbolBase.isShortAct inp then
    (.bytesShortsItem sym1 sym2 sym3 w (SymbolBase.isByteAct inp latch)
      (SymbolBase.isShortAct inp), 0, latch)
  else if SymbolBase.isFloatAct inp i then
    (.floatItem (labelAtModel inp i) w, 0, latch)
  else if SymbolBase.isDoubleAct inp i then
    (.doubleItem (labelAtModel inp i) w (inp.words.getD (i + 1) 0), 1, latch)
  else if SymbolBase.isStringAct inp latch then
    match SymbolBase.getNthWordAsStringModel inp i with
    | some (s, skip) => (.asciiItem s, skip, latch)
    | none => (.wordItem (labelAtModel inp i) w (resolveWordValue inp i), 0, true)
  else
    (.wordItem (labelAtModel inp i) w (resolveWordValue inp i), 0, latch)

/-- The word loop of `SymbolBase.disassembleAsData` (lines 414-445): for
each word, the dispatched item, preceded for non-first words by the SN64
double `.align 3` pre-directive and followed by the string post-align
directive (evaluated after the data, so it sees an updated latch). -/
def SymbolBase.disasmLoop (inp : DataSymInputs) : Nat → Nat → Bool → List AsmItem × Bool
  | 0, _, latch => ([], latch)
  | fuel + 1, i, latch =>
    if i < inp.words.length then
      let r := SymbolBase.renderWord inp latch i
      let pre := if i ≠ 0 ∧ SymbolBase.isDoubleAct inp i ∧ inp.sn64 then
        [AsmItem.alignDouble] else []
      let post := if SymbolBase.isStringAct inp r.2.2 then
        [AsmItem.alignString inp.sn64] else []
      let rest := SymbolBase.disasmLoop inp fuel (i + r.2.1 + 1) r.2.2
      (pre ++ r.1 :: post ++ rest.1, rest.2)
    else ([], latch)

/-- `SymbolBase.disassembleAsData` (lines 400-446): the referencing-symbols
comment, then for `useGlobalLabel` the double pre-align and the global
label (else the plain `name:` label), then the word loop. Fuel
`words.length` bounds the loop since each iteration consumes at least one
word. -/
def SymbolBase.disassembleAsDataModel (inp : DataSymInputs)
    (useGlobalLabel : Bool) (latch : Bool) : List AsmItem × Bool :=
  let header :=
    AsmItem.refsComment inp.csym ::
      (if useGlobalLabel then
        (if SymbolBase.isDoubleAct inp 0 ∧ inp.sn64 then [AsmItem.alignDouble] else [])
          ++ [AsmItem.labelGlobal inp.csym]
      else [AsmItem.labelName inp.csym])
  let body := SymbolBase.disasmLoop inp inp.words.length 0 latch
  (header ++ body.1, body.2)

/-- `SymbolBase.disassemble` (lines 448-455): prepares the version string
when `migrate` is set, but then rebinds `output` to the
`disassembleAsData` result, so the returned text never contains it. -/
def SymbolBase.disassembleModel (inp : DataSymInputs) (versionString : List AsmItem)
    (migrate useGlobalLabel : Bool) (latch : Bool) : List AsmItem × Bool :=
  let output := if migrate then versionString else []
  let output := SymbolBase.disassembleAsDataModel inp useGlobalLabel latch
  output

/-- `SymbolBss.disassembleAsBss` (src/spimdisasm/mips/symbols/MipsSymbolBss.py,
lines 24-32): the referencing-symbols comment, the label, and one `.space`
line. -/
def SymbolBss.disassembleAsBssModel (csym : ContextSymbol) (spaceSize : Int) :
    List AsmItem :=
  [AsmItem.refsComment csym, AsmItem.labelGlobal csym, AsmItem.spaceDirective spaceSize]

/-- `SymbolBss.disassemble` (lines 34-41): same dead-store shape as
`SymbolBase.disassemble`; `useGlobalLabel` is accepted and ignored. -/
def SymbolBss.disassembleModel (csym : ContextSymbol) (spaceSize : Int)
    (versionString : List AsmItem) (migrate useGlobalLabel : Bool) : List AsmItem :=
  let output := if migrate then versionString else []
  let output := SymbolBss.disassembleAsBssModel csym spaceSize
  output

/-- C9: for both emitters and either value of `useGlobalLabel`,
`disassemble(migrate=True)` returns exactly what `disassemble(migrate=False)`
returns: the version string prepared for the migrate case never reaches the
returned text because `output` is rebound before the return. -/
theorem C9_migrate_has_no_effect (inp : DataSymInputs) (versionString : List AsmItem)
    (u latch : Bool) (csym : ContextSymbol) (spaceSize : Int) :
    SymbolBase.disassembleModel inp versionString true u latch
        = SymbolBase.disassembleModel inp versionString false u latch
    ∧ SymbolBase.disassembleModel inp versionString true u latch
        = SymbolBase.disassembleAsDataModel inp u latch
    ∧ SymbolBss.disassembleModel csym spaceSize versionString true u
        = SymbolBss.disassembleModel csym spaceSize versionString false u
    ∧ SymbolBss.disassembleModel csym spaceSize versionString true u
        = SymbolBss.disassembleAsBssModel csym spaceSize :=
  ⟨rfl, rfl, rfl, rfl⟩

/-- An autogenerated float-typed rodata symbol at `0x80200000`. -/
def floatCsym : ContextSymbol :=
  { ContextSymbol.new 0x80200000 true .rodata none with symType := .floatType }

/-- A float-typed emitter over one word with a clean segment. -/
def c6CleanInputs : DataSymInputs :=
  { words := [0x3F800000]
    vram := 0x80200000
    csym := floatCsym
    seg := emptyGlobalSegment
    relocInfos := []
    constantsKeys := []
    canRefAddends := false
    canRefConstants := false
    produceFlag := true
    sn64 := false }

/-- A symbol in the middle of the float word, at `0x80200002`. -/
def c6MidSymbol : ContextSymbol := ContextSymbol.new 0x80200002 false .rodata none

/-- The same float-typed emitter, but with `c6MidSymbol` planted inside the
word. -/
def c6MidInputs : DataSymInputs :=
  { c6CleanInputs with
    seg := { emptyGlobalSegment with symbols := [(0x80200002, c6MidSymbol)] } }

/-- C6 (amended): at a symbol typed Float whose word contains no mid-word
symbols, the word renders as `.float` exactly when the exponent bits are
not all ones, and falls back to the `.word` rendering when they are; a
mid-word symbol instead forces a bytes/shorts rendering regardless of the
exponent (see the counterexample). -/
theorem C6_amended_float_rendering (inp : DataSymInputs) (latch : Bool) (i : Nat)
    (ht : inp.csym.symType = .floatType)
    (h1 : sdGet inp.seg.symbols (inp.vram + 4 * i + 1) = none)
    (h2 : sdGet inp.seg.symbols (inp.vram + 4 * i + 2) = none)
    (h3 : sdGet inp.seg.symbols (inp.vram + 4 * i + 3) = none) :
    ((∃ lbl : Option ContextSymbol,
        (SymbolBase.renderWord inp latch i).1 = .floatItem lbl (inp.words.getD i 0))
      ↔ (inp.words.getD i 0) &&& 0x7F800000 ≠ 0x7F800000)
    ∧ ((inp.words.getD i 0) &&& 0x7F800000 = 0x7F800000 →
        (SymbolBase.renderWord inp latch i).1
          = .wordItem (labelAtModel inp i) (inp.words.getD i 0) (resolveWordValue inp i)) := by
  by_cases hmask : (inp.words.getD i 0) &&& 0x7F800000 = 0x7F800000
  · have hm : inp.words[i]?.getD 0 &&& 0x7F800000 = 0x7F800000 := by
      simpa [List.getD] using hmask
    constructor
    · constructor
      · intro hex
        obtain ⟨lbl, hl⟩ := hex
        simp [SymbolBase.renderWord, h1, h2, h3, SymbolBase.isByteAct,
          SymbolBase.isShortAct, SymbolBase.isStringAct, SymbolBase.isFloatAct,
          SymbolBase.isDoubleAct, ContextSymbol.isByteTy, ContextSymbol.isShortTy,
          ContextSymbol.isStringTy, ContextSymbol.isFloatTy, ContextSymbol.isDoubleTy,
          ht] at hl
        rw [if_pos hm] at hl
        cases hl
      · intro hma
        exact absurd hmask hma
    · intro _
      simp [SymbolBase.renderWord, h1, h2, h3, SymbolBase.isByteAct,
        SymbolBase.isShortAct, SymbolBase.isStringAct, SymbolBase.isFloatAct,
        SymbolBase.isDoubleAct, ContextSymbol.isByteTy, ContextSymbol.isShortTy,
        ContextSymbol.isStringTy, ContextSymbol.isFloatTy, ContextSymbol.isDoubleTy,
        ht]
      rw [if_pos hm]
  · have hm : ¬(inp.words[i]?.getD 0 &&& 0x7F800000 = 0x7F800000) := by
      simpa [List.getD] using hmask
    constructor
    · constructor
      · intro _
        exact hmask
      · intro _
        refine ⟨labelAtModel inp i, ?_⟩
        simp [SymbolBase.renderWord, h1, h2, h3, SymbolBase.isByteAct,
          SymbolBase.isShortAct, SymbolBase.isStringAct, SymbolBase.isFloatAct,
          SymbolBase.isDoubleAct, ContextSymbol.isByteTy, ContextSymbol.isShortTy,
          ContextSymbol.isStringTy, ContextSymbol.isFloatTy, ContextSymbol.isDoubleTy,
          ht]
        rw [if_neg hm]
    · intro hma
      exact absurd hma hmask

/-- Witness for C6 (amended) on the clean one-word float emitter: the word
`0x3F800000` (exponent not all ones) renders as `.float`, and the iff
holds. -/
theorem C6_amended_witness :
    c6CleanInputs.csym.symType = .floatType
    ∧ ((∃ lbl : Option ContextSymbol,
          (SymbolBase.renderWord c6CleanInputs false 0).1
            = .floatItem lbl (c6CleanInputs.words.getD 0 0))
        ↔ (c6CleanInputs.words.getD 0 0) &&& 0x7F800000 ≠ 0x7F800000)
    ∧ ((c6CleanInputs.words.getD 0 0) &&& 0x7F800000 = 0x7F800000 →
        (SymbolBase.renderWord c6CleanInputs false 0).1
          = .wordItem (labelAtModel c6CleanInputs 0) (c6CleanInputs.words.getD 0 0)
              (resolveWordValue c6CleanInputs 0)) :=
  ⟨by decide,
    (C6_amended_float_rendering c6CleanInputs false 0 (by decide) (by decide)
      (by decide) (by decide)).1,
    (C6_amended_float_rendering c6CleanInputs false 0 (by decide) (by decide)
      (by decide) (by decide)).2⟩

/-- C6 counterexample: at a Float-typed symbol whose word `0x3F800000` has a
valid exponent, a mid-word symbol at `vram + 2` makes `disassembleAsData`
emit a bytes/shorts rendering, not `.float`, so the claimed iff fails. -/
theorem C6_counterexample :
    c6MidInputs.csym.symType = .floatType
    ∧ (0x3F800000 &&& 0x7F800000 ≠ 0x7F800000)
    ∧ (SymbolBase.renderWord c6MidInputs false 0).1
        = .bytesShortsItem none (some c6MidSymbol) none 0x3F800000 false false := by
  refine ⟨by decide, by decide, by decide⟩

theorem renderWord_latch_true (inp : DataSymInputs) (i : Nat) :
    (SymbolBase.renderWord inp true i).2.2 = true := by
  simp only [SymbolBase.renderWord]
  repeat' split
  all_goals rfl

theorem disasmLoop_latch_true (inp : DataSymInputs) (fuel : Nat) :
    ∀ i : Nat, (SymbolBase.disasmLoop inp fuel i true).2 = true := by
  induction fuel with
  | zero => intro i; rfl
  | succ n ih =>
    intro i
    rw [SymbolBase.disasmLoop]
    by_cases h : i < inp.words.length
    · rw [if_pos h]
      simp only [renderWord_latch_true]
      exact ih _
    · rw [if_neg h]

theorem disassembleAsData_latch_true (inp : DataSymInputs) (u : Bool) :
    (SymbolBase.disassembleAsDataModel inp u true).2 = true :=
  disasmLoop_latch_true inp inp.words.length 0

/-- C7 (amended): `disassemble` is deterministic given the latch state, so
all calls after the first return identical results: the second and third
calls (and hence every later call) coincide both in emitted text and in
state. Only the first call can differ, when it latches a string-decode
failure partway through emission (see the counterexample). -/
theorem C7_amended_second_call_stable (inp : DataSymInputs)
    (versionString : List AsmItem) (migrate u : Bool) :
    SymbolBase.disassembleModel inp versionString migrate u
        ((SymbolBase.disassembleModel inp versionString migrate u false).2)
      = SymbolBase.disassembleModel inp versionString migrate u
          ((SymbolBase.disassembleModel inp versionString migrate u
            ((SymbolBase.disassembleModel inp versionString migrate u false).2)).2) := by
  show SymbolBase.disassembleAsDataModel inp u
      ((SymbolBase.disassembleAsDataModel inp u false).2)
    = SymbolBase.disassembleAsDataModel inp u
        ((SymbolBase.disassembleAsDataModel inp u
          ((SymbolBase.disassembleAsDataModel inp u false).2)).2)
  cases hb : (SymbolBase.disassembleAsDataModel inp u false).2 with
  | false => rw [hb]
  | true => rw [disassembleAsData_latch_true]

/-- A string-typed rodata symbol at `0x80300000`. -/
def stringCsym : ContextSymbol :=
  { ContextSymbol.new 0x80300000 true .rodata none with symType := .stringType }

/-- A string-typed emitter whose first word decodes as `"AAA"` but whose
second word fails the string checks (trailing byte 0xFF). -/
def c7Inputs : DataSymInputs :=
  { words := [0x41414100, 0x000000FF]
    vram := 0x80300000
    csym := stringCsym
    seg := emptyGlobalSegment
    relocInfos := []
    constantsKeys := []
    canRefAddends := false
    canRefConstants := false
    produceFlag := true
    sn64 := false }

/-- C7 counterexample: on `c7Inputs` the first `disassemble` call emits
`.asciz "AAA"` (plus its post-align) and then latches the string-decode
failure on the second word; the second call, with the latch set, renders
both words as `.word`, so the two calls return different text. -/
theorem C7_counterexample :
    (SymbolBase.disassembleModel c7Inputs [] false true false).1
      = [.refsComment stringCsym, .labelGlobal stringCsym, .asciiItem "AAA",
         .alignString false, .wordItem none 0x000000FF (.rawHex 0x000000FF)]
    ∧ (SymbolBase.disassembleModel c7Inputs [] false true
        ((SymbolBase.disassembleModel c7Inputs [] false true false).2)).1
      = [.refsComment stringCsym, .labelGlobal stringCsym,
         .wordItem none 0x41414100 (.rawHex 0x41414100),
         .wordItem none 0x000000FF (.rawHex 0x000000FF)]
    ∧ (SymbolBase.disassembleModel c7Inputs [] false true false).1
        ≠ (SymbolBase.disassembleModel c7Inputs [] false true
            ((SymbolBase.disassembleModel c7Inputs [] false true false).2)).1 := by
  refine ⟨by decide, by decide, by decide⟩
